import Mathlib

/-!
# codeconnect-vm-operator: the VmGroup reconciler

A shallow embedding of `controllers/vmgroup_controller.go`, `controllers/vsphere.go`
and `controllers/limiter.go`.

The store (controller-runtime client) and the backend (govmomi) are external. Every call
the code makes to them is answered by an `Env`: one field per call site, and for the calls
made inside a loop one answer per loop index. A pass of `Reconcile` is then a function of
the `Env`; it returns the ordered list of calls it made (`Pass.trace`), what it returned
and the object it held in memory at the end.
-/

namespace VmOperator

/-! ## Errors -/

/-- What the code can find out about the dynamic type of an error: `errors.As(err, &nfe)`
with `nfe : *find.NotFoundError`, and `k8serr.IsNotFound(err)`. -/
inductive ErrKind where
  | findNotFound
  | storeNotFound
  | other
  deriving DecidableEq, Repr

/-- A Go `error` value: its kind and the text of `err.Error()`. -/
structure Err where
  kind : ErrKind
  text : String
  deriving DecidableEq, Repr

/-- The test `errors.As(err, &nfe)` for `nfe : *find.NotFoundError`. -/
def Err.isNfe (e : Err) : Bool := e.kind == ErrKind.findNotFound

/-- The function `errors.Wrap(err, msg)` of github.com/pkg/errors on a non-nil error: the text
becomes `msg: text`, and `errors.As` still sees the cause. -/
def Err.wrap (e : Err) (msg : String) : Err :=
  { kind := e.kind, text := msg ++ ": " ++ e.text }

/-- The function `errors.Wrap(err, msg)`: nil stays nil. -/
def wrap : Option Err → String → Option Err
  | none, _ => none
  | some e, msg => some (e.wrap msg)

/-- The function `client.IgnoreNotFound(err)`. -/
def ignoreNotFound (e : Err) : Option Err :=
  if e.kind = ErrKind.storeNotFound then none else some e

/-- The hexadecimal digit of `n`, in lower case. -/
def hexDigit (n : Nat) : Char := "0123456789abcdef".toList.getD (n % 16) '0'

/-- The function `strconv.IsPrint` up to U+00FF (printable ASCII, and U+00A1 to U+00FF
but the soft hyphen); the characters above U+00FF are taken as printable. -/
def isPrint (c : Char) : Bool :=
  if c.toNat ≤ 255 then
    (32 ≤ c.toNat && c.toNat ≤ 126) || (161 ≤ c.toNat && c.toNat ≤ 255 && c.toNat != 173)
  else true

/-- What `strconv.Quote` writes for one character: the double quote and the backslash get a
backslash, a printable character stands as it is, and every other character is written as
an escape sequence. -/
def escapeRune (c : Char) : String :=
  if c = '"' then "\\\""
  else if c = '\\' then "\\\\"
  else if isPrint c then c.toString
  else if c.toNat = 7 then "\\a"
  else if c.toNat = 8 then "\\b"
  else if c.toNat = 12 then "\\f"
  else if c.toNat = 10 then "\\n"
  else if c.toNat = 13 then "\\r"
  else if c.toNat = 9 then "\\t"
  else if c.toNat = 11 then "\\v"
  else if c.toNat < 32 ∨ c.toNat = 127 then
    "\\x" ++ String.mk [hexDigit (c.toNat / 16), hexDigit c.toNat]
  else if c.toNat < 65536 then
    "\\u" ++ String.mk [hexDigit (c.toNat / 4096), hexDigit (c.toNat / 256),
      hexDigit (c.toNat / 16), hexDigit c.toNat]
  else
    "\\U" ++ String.mk [hexDigit (c.toNat / 268435456), hexDigit (c.toNat / 16777216),
      hexDigit (c.toNat / 1048576), hexDigit (c.toNat / 65536), hexDigit (c.toNat / 4096),
      hexDigit (c.toNat / 256), hexDigit (c.toNat / 16), hexDigit c.toNat]

/-- The verb `%q` of `fmt.Sprintf` on a string, which is `strconv.Quote`. -/
def quote (s : String) : String :=
  "\"" ++ String.join (s.toList.map escapeRune) ++ "\""

/-- Does `pat` start the list `s`. -/
def startsWith : List Char → List Char → Bool
  | _, [] => true
  | [], _ :: _ => false
  | c :: s, p :: pat => c == p && startsWith s pat

/-- The function `strings.Contains` on lists of characters. -/
def containsChars : List Char → List Char → Bool
  | [], pat => pat.isEmpty
  | c :: s, pat => startsWith (c :: s) pat || containsChars s pat

/-- The function `strings.Contains(s, substr)`. -/
def stringsContains (s substr : String) : Bool := containsChars s.toList substr.toList

/-! ## api/v1alpha1 -/

abbrev StatusPhase := String

def RunningStatusPhase : StatusPhase := "RUNNING"
def PendingStatusPhase : StatusPhase := "PENDING"
def ErrorStatusPhase : StatusPhase := "ERROR"

structure VmGroupSpec where
  CPU : Int
  Memory : Int
  Template : String
  Replicas : Int
  deriving DecidableEq, Repr

structure VmGroupStatus where
  Phase : StatusPhase
  CurrentReplicas : Option Int
  DesiredReplicas : Int
  LastMessage : String
  deriving DecidableEq, Repr

/-- The resource: the parts of `ObjectMeta` the reconciler reads, the spec and the status.
`DeletionTimestamp` is `none` for a nil pointer, else the instant (0 is the zero time). -/
structure VmGroup where
  Name : String
  Namespace : String
  DeletionTimestamp : Option Nat
  Finalizers : List String
  Spec : VmGroupSpec
  Status : VmGroupStatus
  deriving DecidableEq, Repr

/-- The method `DeletionTimestamp.IsZero()`. -/
def VmGroup.deletionIsZero (vg : VmGroup) : Bool :=
  match vg.DeletionTimestamp with
  | none => true
  | some t => t == 0

/-! ## Machine integers -/

/-- Conversion to `int32` (two's complement wrap-around). -/
def int32 (x : Int) : Int := (x + 2147483648) % 4294967296 - 2147483648

/-! ## controllers/limiter.go -/

/-- A Go channel of `struct{}` with a buffer: its capacity and the number of buffered
elements. -/
structure Chan where
  cap : Nat
  len : Nat
  deriving DecidableEq, Repr

/-- The send `c <- struct{}{}`: `none` when the sender has to wait (buffer full). -/
def Chan.send (c : Chan) : Option Chan :=
  if c.len < c.cap then some { c with len := c.len + 1 } else none

/-- The receive `<-c`: `none` when the receiver has to wait (buffer empty). -/
def Chan.recv (c : Chan) : Option Chan :=
  if 0 < c.len then some { c with len := c.len - 1 } else none

structure limiter where
  bucket : Chan
  deriving DecidableEq, Repr

/-- The method `acquire`: `none` when the caller has to wait. -/
def limiter.acquire (l : limiter) : Option limiter :=
  (l.bucket.recv).map fun b => { bucket := b }

/-- The method `release`: `none` when the caller has to wait. -/
def limiter.release (l : limiter) : Option limiter :=
  (l.bucket.send).map fun b => { bucket := b }

/-- The loop `for token := 0; token < concurrency; token++ { b <- struct{}{} }`, with
`n` iterations left: `none` when a send has to wait. -/
def fillBucket : Nat → Chan → Option Chan
  | 0, b => some b
  | n + 1, b => (b.send).bind (fillBucket n)

/-- The function `newLimiter`: `none` when `make` is given a negative size or filling the
bucket cannot complete. -/
def newLimiter (concurrency : Int) : Option limiter :=
  if concurrency < 0 then none
  else (fillBucket concurrency.toNat { cap := concurrency.toNat, len := 0 }).map
    fun b => { bucket := b }

/-- A step on the limiter, with the caller that makes it. -/
inductive LimAction where
  | acquire (caller : Nat)
  | release (caller : Nat)
  deriving DecidableEq, Repr

/-- A limiter together with the callers that acquired and did not release yet (one entry
for each token held). -/
structure LimState where
  lim : limiter
  holders : List Nat
  deriving DecidableEq, Repr

/-- One completed step on the limiter; `none` when the step cannot complete. -/
def LimState.step (s : LimState) : LimAction → Option LimState
  | .acquire c => (s.lim.acquire).map fun l => { lim := l, holders := c :: s.holders }
  | .release c => (s.lim.release).map fun l => { lim := l, holders := s.holders.erase c }

/-- A sequence of completed steps. -/
def LimState.run (s : LimState) : List LimAction → Option LimState
  | [] => some s
  | a :: as => (s.step a).bind fun t => t.run as

/-- Every release in the sequence is made by a caller that holds a token at that point,
`holders` being the callers that hold one at the start. -/
def releasesByHolders : List Nat → List LimAction → Bool
  | _, [] => true
  | holders, .acquire c :: as => releasesByHolders (c :: holders) as
  | holders, .release c :: as => holders.contains c && releasesByHolders (holders.erase c) as

/-! ## The backend and the store -/

/-- A `*object.VirtualMachine`. -/
structure VM where
  name : String
  InventoryPath : String
  deriving DecidableEq, Repr

/-- A `*object.Folder`. -/
structure Folder where
  InventoryPath : String
  deriving DecidableEq, Repr

/-- The answer to a request that hands back a task (`Clone`, `PowerOn`, `PowerOff`,
`Destroy`): either the request fails and the task is nil, or a task is returned and
`task.Wait` gives `wait`. -/
inductive TaskCall where
  | failed (err : Err)
  | started (wait : Option Err)
  deriving DecidableEq, Repr

inductive PowerState where
  | poweredOff
  | poweredOn
  | suspended
  deriving DecidableEq, Repr

/-- The answers to the backend calls of one `cloneVM`. -/
structure CloneCalls where
  findTemplate : Option Err
  findFolder : Option Err
  clone : TaskCall

/-- The answers to the backend calls on one listed replica. -/
structure VmCalls where
  powerState : Except Err PowerState
  powerOn : TaskCall
  powerOff : TaskCall
  destroy : TaskCall

/-- The answers of the store and of the backend during one pass. `clone i` answers the
clone started by iteration `i` of a creation loop, `vm i` the calls on the replica at
index `i` of the listing. `vmList` is what the backend answers when asked for the virtual
machines of the group folder. `first` says which of the failed tasks of an errgroup failed
first, and `rand k` is the result of the `k`-th call of `rand.Intn`. -/
structure Env where
  get : Except Err VmGroup
  update : Option Err
  statusUpdate : Option Err
  groupFolder : Except Err Folder
  rootFolder : Except Err Folder
  createFolder : Except Err Folder
  listFolder : Except Err Folder
  vmList : Except Err (List VM)
  clone : Nat → CloneCalls
  vm : Nat → VmCalls
  destroyFolder : TaskCall
  first : Nat
  rand : Nat → Nat

/-- How a Go function call ends: it returns its `error` result, or the goroutine hits a
run-time error (nil dereference, index out of range) and the process goes down. -/
inductive Exit where
  | returned (err : Option Err)
  | crashed
  deriving DecidableEq, Repr

/-! ## controllers/vsphere.go -/

def vmPath : String := "/vcqaDC/vm/vm-operator"
def alreadyDeletedErr : String := "has already been deleted or has not been completely created"
def defaultConcurrency : Int := 3

/-- The path `vmPath + "/" + vmgroup` that `getVMGroup` and `getReplicas` hand to
`finder.Folder`. -/
def groupPath (vmgroup : String) : String := vmPath ++ "/" ++ vmgroup

def getVMGroup (env : Env) (vmgroup : String) : Except Err Folder :=
  match env.groupFolder with
  | .error err => .error (err.wrap ("could not retrieve vm group " ++ quote vmgroup))
  | .ok f => .ok f

def createVMGroup (env : Env) (vmgroup : String) : Except Err Folder :=
  match env.rootFolder with
  | .error err => .error (err.wrap "could not get vm-operator folder")
  | .ok _ =>
    match env.createFolder with
    | .error err => .error (err.wrap ("could not create vm group folder " ++ quote vmgroup))
    | .ok group => .ok group

/-- The method `finder.VirtualMachineList(ctx, path)` of govmomi, `env.vmList` being the
answer of the backend for `path`: when no virtual machine is found the method returns a
`*find.NotFoundError`, so it never returns an empty list with a nil error. -/
def virtualMachineList (env : Env) (path : String) : Except Err (List VM) :=
  match env.vmList with
  | .error err => .error err
  | .ok [] =>
    .error { kind := .findNotFound,
             text := "vm " ++ String.mk [Char.ofNat 39] ++ path ++ String.mk [Char.ofNat 39] ++
               " not found" }
  | .ok (vm :: vms) => .ok (vm :: vms)

def getReplicas (env : Env) (group : String) : Except Err (List VM) :=
  match env.listFolder with
  | .error err => .error (err.wrap ("could not find vm group " ++ quote group))
  | .ok g => virtualMachineList env (g.InventoryPath ++ "/*")

def cloneVM (c : CloneCalls) (name : String) : Option Err :=
  match c.findTemplate with
  | some err => some (err.wrap "could not find template")
  | none =>
    match c.findFolder with
    | some err => some (err.wrap "could not find destination folder")
    | none =>
      match c.clone with
      | .failed err => some (err.wrap "could not initiate clone task")
      | .started (some err) => some (err.wrap ("could not create clone " ++ quote name))
      | .started none => none

def isPoweredOn (c : VmCalls) : Except Err Bool :=
  match c.powerState with
  | .error err => .error err
  | .ok p => .ok (p == PowerState.poweredOn)

/-- The backend requests made on one replica. -/
inductive VmRequest where
  | powerOff
  | powerOffWait
  | destroy
  | destroyWait
  | powerOn
  | powerOnWait
  deriving DecidableEq, Repr

/-- The function `deleteVM`, with the requests it made. `task, _ := vm.PowerOff(ctx)` leaves
`task` nil when the request fails, and `task.Wait` reads the client stored in its receiver,
so `_ = task.Wait(ctx)` on the nil task is a nil dereference. -/
def deleteVM (c : VmCalls) (vm : VM) : List VmRequest × Exit :=
  match c.powerOff with
  | .failed _ => ([.powerOff], .crashed)
  | .started _ =>
    match c.destroy with
    | .failed err =>
      if stringsContains err.text alreadyDeletedErr then
        ([.powerOff, .powerOffWait, .destroy], .returned none)
      else
        ([.powerOff, .powerOffWait, .destroy],
          .returned (some (err.wrap ("could not delete vm " ++ quote vm.InventoryPath))))
    | .started (some err) =>
      ([.powerOff, .powerOffWait, .destroy, .destroyWait],
        .returned (some (err.wrap "vm delete task failed")))
    | .started none =>
      ([.powerOff, .powerOffWait, .destroy, .destroyWait], .returned none)

def deleteFolder (c : TaskCall) (group : Folder) : Option Err :=
  match c with
  | .failed err =>
    if stringsContains err.text alreadyDeletedErr then none
    else some (err.wrap ("could not delete folder " ++ quote group.InventoryPath))
  | .started (some err) => some (err.wrap "folder delete task failed")
  | .started none => none

/-! ## controllers/vmgroup_controller.go -/

def finalizerID : String := "vm-operator"
def defaultNameLength : Nat := 8
/-- The constant `time.Second`, in nanoseconds. -/
def second : Nat := 1000000000
def defaultRequeue : Nat := 20 * second
def successMessage : String := "successfully reconciled VmGroup"
def letters : List Char := "abcdefghijklmnopqrstuvwxyz".toList

/-- The value `ctrl.Result`; `RequeueAfter = 0` asks for no requeue. -/
structure Result where
  RequeueAfter : Nat
  deriving DecidableEq, Repr

def createStatus (phase : StatusPhase) (msg : String) (err : Option Err)
    (current : Option Int) (desired : Int) : VmGroupStatus :=
  let msg := match err with
    | some e => msg ++ ": " ++ e.text
    | none => msg
  { Phase := phase, CurrentReplicas := current, DesiredReplicas := desired, LastMessage := msg }

def containsString : List String → String → Bool
  | [], _ => false
  | item :: slice, s => if item = s then true else containsString slice s

def removeString : List String → String → List String
  | [], _ => []
  | item :: slice, s => if item = s then removeString slice s else item :: removeString slice s

/-- The function `generateName`, for the call number `call` of the pass. -/
def generateName (rand : Nat → Nat) (call : Nat) : String :=
  String.mk ((List.range defaultNameLength).map fun i =>
    letters.getD (rand (defaultNameLength * call + i) % letters.length) 'a')

def getGroupName (ns name : String) : String := ns ++ "-" ++ name

/-- The calls a pass makes, as they appear in `Pass.trace`: the store calls, the backend
functions of vsphere.go called by the pass itself, the tasks handed to the errgroup
(`eg.Go`) and the return of `eg.Wait`. -/
inductive Op where
  | get
  | update (finalizers : List String)
  | statusUpdate (status : VmGroupStatus)
  | getVMGroup (vmgroup : String)
  | createVMGroup (vmgroup : String)
  | getReplicas (group : String)
  | isPoweredOn (vm : VM)
  | deleteFolder (group : Folder)
  | goCloneVM (template name destination : String)
  | goDeleteVM (vm : VM)
  | goPowerOn (vm : VM)
  | wait
  deriving DecidableEq, Repr

/-- One pass of `Reconcile`: the calls made in order, what was returned (`none` when the
process went down on a run-time error) and the object `vg` at the end. For a pass that goes
down while tasks of the errgroup run, `trace` holds the calls that were made for certain. -/
structure Pass where
  trace : List Op
  exit : Option (Result × Option Err)
  vg : VmGroup

/-- The zero value of `VmGroup`. -/
def VmGroup.zero : VmGroup :=
  { Name := "", Namespace := "", DeletionTimestamp := none, Finalizers := [],
    Spec := { CPU := 0, Memory := 0, Template := "", Replicas := 0 },
    Status := { Phase := "", CurrentReplicas := none, DesiredReplicas := 0, LastMessage := "" } }

/-- The error `eg.Wait` returns: nil when no task failed, else the error of the task that
failed first (`first` picks it among the failed ones). -/
def egWait (first : Nat) : List Err → Option Err
  | [] => none
  | e :: es => some ((e :: es).getD (first % (es.length + 1)) e)

/-- The errors of the tasks that returned one. -/
def failures : List Exit → List Err
  | [] => []
  | .returned (some e) :: rs => e :: failures rs
  | _ :: rs => failures rs

/-- The loop `for i := 0; i < len(vms); i++` of `deleteExternalResources`, from index `i`:
the replicas handed to `eg.Go(deleteVM)`. -/
def deleteTasks (env : Env) : Nat → List VM → List Exit
  | _, [] => []
  | i, vm :: vms => (deleteVM (env.vm i) vm).2 :: deleteTasks env (i + 1) vms

/-- The delete tasks handed to the errgroup for certain when one of them brings the process
down: the loop hands the tasks one after the other, taking a token of the limiter before
each, so the tasks up to the first one that hits the run-time error were handed; whether
the later ones were is not known. Without such a task these are all the tasks. -/
def handedUntilCrash (env : Env) : List (Nat × VM) → List (Nat × VM)
  | [] => []
  | p :: l =>
    if (deleteVM (env.vm p.1) p.2).2 = Exit.crashed then [p] else p :: handedUntilCrash env l

def deleteExternalResources (env : Env) (vg : VmGroup) : List Op × Exit :=
  let groupName := getGroupName vg.Namespace vg.Name
  match getVMGroup env groupName with
  | .error err =>
    if err.isNfe then ([.getVMGroup groupName], .returned none)
    else ([.getVMGroup groupName], .returned (some (err.wrap "could not get VmGroup")))
  | .ok group =>
    match getReplicas env groupName with
    | .error err =>
      if err.isNfe then
        ([.getVMGroup groupName, .getReplicas groupName, .deleteFolder group],
          .returned (wrap (deleteFolder env.destroyFolder group) "could not delete VmGroup"))
      else
        ([.getVMGroup groupName, .getReplicas groupName],
          .returned (some (err.wrap "could not delete VmGroup")))
    | .ok vms =>
      let started := [Op.getVMGroup groupName, .getReplicas groupName] ++ vms.map Op.goDeleteVM
      let rs := deleteTasks env 0 vms
      if rs.contains .crashed then
        ([Op.getVMGroup groupName, .getReplicas groupName] ++
          (handedUntilCrash env vms.enum).map fun p => Op.goDeleteVM p.2, .crashed)
      else
        match egWait env.first (failures rs) with
        | some err => (started ++ [.wait], .returned (some (err.wrap "could not delete VmGroup")))
        | none =>
          (started ++ [.wait, .deleteFolder group],
            .returned (wrap (deleteFolder env.destroyFolder group) "could not delete VmGroup"))

/-- The end of a branch: `vg.Status = status` and
`return result, errors.Wrap(r.Client.Status().Update(ctx, vg), "could not update status")`. -/
def statusExit (env : Env) (vg : VmGroup) (ops : List Op) (result : Result)
    (status : VmGroupStatus) : Pass :=
  { trace := ops ++ [.statusUpdate status],
    exit := some (result, wrap env.statusUpdate "could not update status"),
    vg := { vg with Status := status } }

/-- The clone tasks the creation loops hand to `eg.Go` in `n` iterations. -/
def cloneOps (env : Env) (vg : VmGroup) (n : Nat) : List Op :=
  (List.range n).map fun i =>
    Op.goCloneVM vg.Spec.Template (vg.Name ++ "-replica-" ++ generateName env.rand i)
      (vmPath ++ "/" ++ getGroupName vg.Namespace vg.Name)

/-- The errors of the clone tasks of `n` iterations. -/
def cloneErrs (env : Env) (vg : VmGroup) (n : Nat) : List Err :=
  (List.range n).filterMap fun i =>
    cloneVM (env.clone i) (vg.Name ++ "-replica-" ++ generateName env.rand i)

/-- The branch `if !exists`: create `desired` replicas. -/
def createReplicas (env : Env) (vg : VmGroup) (pre : List Op) : Pass :=
  let desired := vg.Spec.Replicas
  let ops := pre ++ cloneOps env vg desired.toNat ++ [.wait]
  match egWait env.first (cloneErrs env vg desired.toNat) with
  | some err =>
    if err.isNfe then
      statusExit env vg ops { RequeueAfter := 0 }
        (createStatus ErrorStatusPhase "could not create replica(s)" (some err) none desired)
    else
      statusExit env vg ops { RequeueAfter := defaultRequeue }
        (createStatus PendingStatusPhase "could not create replica(s)" (some err) none desired)
  | none =>
    statusExit env vg ops { RequeueAfter := 0 }
      (createStatus RunningStatusPhase successMessage none (some desired) desired)

/-- The loop of the scale-down branch, at index `i` with `n` iterations left:
`vm := vms[i]` and `eg.Go(deleteVM)`. Gives the replicas handed to `eg.Go` with their
index, and whether `vms[i]` went out of range. -/
def scaleDownLoop (vms : List VM) : Nat → Nat → List (Nat × VM) × Bool
  | _, 0 => ([], false)
  | i, n + 1 =>
    match vms[i]? with
    | none => ([], true)
    | some vm => ((i, vm) :: (scaleDownLoop vms (i + 1) n).1, (scaleDownLoop vms (i + 1) n).2)

/-- The task of the `default` branch: `task, err := vm.PowerOn(egCtx)`, return `err` when
it is not nil, else `task.Wait(egCtx)`. -/
def powerOnTask (c : VmCalls) : Option Err :=
  match c.powerOn with
  | .failed err => some err
  | .started w => w

/-- The loop of the `default` branch from index `i`: the calls made, the results of the
power-on tasks started, and the replica and error of a failed power-state query. -/
def powerLoop (env : Env) : Nat → List VM → List Op × List Exit × Option (VM × Err)
  | _, [] => ([], [], none)
  | i, vm :: vms =>
    match isPoweredOn (env.vm i) with
    | .error err => ([.isPoweredOn vm], [], some (vm, err))
    | .ok isOn =>
      let rest := powerLoop env (i + 1) vms
      if isOn then (Op.isPoweredOn vm :: rest.1, rest.2.1, rest.2.2)
      else
        (Op.isPoweredOn vm :: Op.goPowerOn vm :: rest.1,
          Exit.returned (powerOnTask (env.vm i)) :: rest.2.1, rest.2.2)

/-- The exit at the end of `Reconcile`: the status RUNNING with `current`. -/
def running (env : Env) (vg : VmGroup) (current : Int) (ops : List Op) : Pass :=
  statusExit env vg ops { RequeueAfter := 0 }
    (createStatus RunningStatusPhase successMessage none (some current) vg.Spec.Replicas)

/-- The case `current < desired` of the switch. -/
def scaleUp (env : Env) (vg : VmGroup) (current : Int) (pre : List Op) : Pass :=
  let desired := vg.Spec.Replicas
  let diff := int32 (desired - current)
  let ops := pre ++ cloneOps env vg diff.toNat ++ [.wait]
  match egWait env.first (cloneErrs env vg diff.toNat) with
  | some err =>
    if err.isNfe then
      statusExit env vg ops { RequeueAfter := 0 }
        (createStatus ErrorStatusPhase "could not create replica(s)" (some err)
          (some current) desired)
    else
      statusExit env vg ops { RequeueAfter := defaultRequeue }
        (createStatus PendingStatusPhase "could not create replica(s)" (some err)
          (some current) desired)
  | none => running env vg current ops

/-- The results of the delete tasks started for the replicas `l`, given with their index in
the listing. -/
def deleteResults (env : Env) (l : List (Nat × VM)) : List Exit :=
  l.map fun p => (deleteVM (env.vm p.1) p.2).2

/-- The case `current > desired` of the switch. -/
def scaleDown (env : Env) (vg : VmGroup) (vms : List VM) (current : Int) (pre : List Op) :
    Pass :=
  let desired := vg.Spec.Replicas
  let diff := int32 (current - desired)
  let loop := scaleDownLoop vms 0 diff.toNat
  let started := pre ++ loop.1.map fun p => Op.goDeleteVM p.2
  let rs := deleteResults env loop.1
  if loop.2 || rs.contains .crashed then
    { trace := pre ++ (handedUntilCrash env loop.1).map fun p => Op.goDeleteVM p.2,
      exit := none, vg := vg }
  else
    match egWait env.first (failures rs) with
    | some err =>
      statusExit env vg (started ++ [.wait]) { RequeueAfter := defaultRequeue }
        (createStatus PendingStatusPhase "could not delete replica(s)" (some err)
          (some current) desired)
    | none => running env vg current (started ++ [.wait])

/-- The case `default` of the switch: "replica count in sync, checking power state". -/
def checkPower (env : Env) (vg : VmGroup) (vms : List VM) (current : Int) (pre : List Op) :
    Pass :=
  let desired := vg.Spec.Replicas
  match powerLoop env 0 vms with
  | (ops, _, some (vm, err)) =>
    statusExit env vg (pre ++ ops) { RequeueAfter := defaultRequeue }
      (createStatus PendingStatusPhase ("could not get power state for vm " ++ quote vm.name)
        (some err) (some current) desired)
  | (ops, rs, none) =>
    match egWait env.first (failures rs) with
    | some err =>
      statusExit env vg (pre ++ ops ++ [.wait]) { RequeueAfter := defaultRequeue }
        (createStatus PendingStatusPhase "could not power on virtual machine" (some err)
          (some current) desired)
    | none => running env vg current (pre ++ ops ++ [.wait])

/-- The part of `Reconcile` after a successful listing: "reaching here means (some) replicas
exist, checking for diffs". -/
def checkDiffs (env : Env) (vg : VmGroup) (vms : List VM) (pre : List Op) : Pass :=
  let desired := vg.Spec.Replicas
  let current := int32 vms.length
  if current < desired then scaleUp env vg current pre
  else if current > desired then scaleDown env vg vms current pre
  else checkPower env vg vms current pre

/-- The part of `Reconcile` from "get replicas (VMs) for VmGroup" on. -/
def listReplicas (env : Env) (vg : VmGroup) (pre : List Op) : Pass :=
  let desired := vg.Spec.Replicas
  let groupName := getGroupName vg.Namespace vg.Name
  match getReplicas env groupName with
  | .error err =>
    if err.isNfe then createReplicas env vg (pre ++ [.getReplicas groupName])
    else
      statusExit env vg (pre ++ [.getReplicas groupName]) { RequeueAfter := 0 }
        (createStatus ErrorStatusPhase "could not get replicas for VmGroup from vCenter"
          (some err) none desired)
  | .ok vms => checkDiffs env vg vms (pre ++ [.getReplicas groupName])

/-- The part of `Reconcile` from "check if VmGroup folder exists" on. -/
def reconcileGroup (env : Env) (vg : VmGroup) (pre : List Op) : Pass :=
  let desired := vg.Spec.Replicas
  let groupName := getGroupName vg.Namespace vg.Name
  match getVMGroup env groupName with
  | .error err =>
    if err.isNfe then
      match createVMGroup env groupName with
      | .error err =>
        statusExit env vg (pre ++ [.getVMGroup groupName, .createVMGroup groupName])
          { RequeueAfter := 0 }
          (createStatus ErrorStatusPhase "could not create VmGroup in vCenter" (some err) none
            desired)
      | .ok _ => listReplicas env vg (pre ++ [.getVMGroup groupName, .createVMGroup groupName])
    else
      statusExit env vg (pre ++ [.getVMGroup groupName]) { RequeueAfter := 0 }
        (createStatus ErrorStatusPhase "could not get VmGroup from vCenter" (some err) none
          desired)
  | .ok _ => listReplicas env vg (pre ++ [.getVMGroup groupName])

def Reconcile (env : Env) : Pass :=
  match env.get with
  | .error err =>
    { trace := [.get], exit := some ({ RequeueAfter := 0 }, ignoreNotFound err),
      vg := VmGroup.zero }
  | .ok vg =>
    if !vg.deletionIsZero then
      if containsString vg.Finalizers finalizerID then
        match deleteExternalResources env vg with
        | (ops, .crashed) => { trace := .get :: ops, exit := none, vg := vg }
        | (ops, .returned (some err)) =>
          { trace := .get :: ops, exit := some ({ RequeueAfter := 0 }, some err), vg := vg }
        | (ops, .returned none) =>
          { trace := .get :: ops ++ [.update (removeString vg.Finalizers finalizerID)],
            exit := some ({ RequeueAfter := 0 }, wrap env.update "could not remove finalizer"),
            vg := { vg with Finalizers := removeString vg.Finalizers finalizerID } }
      else { trace := [.get], exit := some ({ RequeueAfter := 0 }, none), vg := vg }
    else if !containsString vg.Finalizers finalizerID then
      match env.update with
      | some err =>
        { trace := [.get, .update (vg.Finalizers ++ [finalizerID])],
          exit := some ({ RequeueAfter := 0 }, some (err.wrap "could not add finalizer")),
          vg := { vg with Finalizers := vg.Finalizers ++ [finalizerID] } }
      | none =>
        reconcileGroup env { vg with Finalizers := vg.Finalizers ++ [finalizerID] }
          [.get, .update (vg.Finalizers ++ [finalizerID])]
    else reconcileGroup env vg [.get]

/-! ## Reading a trace -/

/-- The number of clone tasks handed to the errgroup. -/
def cloneCount (t : List Op) : Nat :=
  (t.filterMap fun op => match op with
    | .goCloneVM _ name _ => some name
    | _ => none).length

/-- The replicas handed to `deleteVM`, in order. -/
def deleteTargets (t : List Op) : List VM :=
  t.filterMap fun op => match op with
    | .goDeleteVM vm => some vm
    | _ => none

/-- The replicas for which a power-on task was started, in order. -/
def powerOnTargets (t : List Op) : List VM :=
  t.filterMap fun op => match op with
    | .goPowerOn vm => some vm
    | _ => none

/-- The replicas whose power state was queried, in order. -/
def powerQueries (t : List Op) : List VM :=
  t.filterMap fun op => match op with
    | .isPoweredOn vm => some vm
    | _ => none

/-- The statuses handed to `Status().Update`, in order. -/
def statusWrites (t : List Op) : List VmGroupStatus :=
  t.filterMap fun op => match op with
    | .statusUpdate st => some st
    | _ => none

/-- The finalizer lists handed to `r.Update`, in order. -/
def recordUpdates (t : List Op) : List (List String) :=
  t.filterMap fun op => match op with
    | .update fs => some fs
    | _ => none

/-- The group creations, in order. -/
def groupCreations (t : List Op) : List String :=
  t.filterMap fun op => match op with
    | .createVMGroup g => some g
    | _ => none

/-- The calls that go to the backend (group lookup, group creation, listing, clone, delete,
power query, power-on, folder deletion). -/
def Op.isBackend : Op → Bool
  | .get => false
  | .update _ => false
  | .statusUpdate _ => false
  | .wait => false
  | _ => true

/-- The calls made before the replicas are looked at: loading, registering the guard,
group lookup, group creation and listing. -/
def Op.isSetup : Op → Bool
  | .get => true
  | .update _ => true
  | .getVMGroup _ => true
  | .createVMGroup _ => true
  | .getReplicas _ => true
  | _ => false

/-- Is the call the start of a task through the errgroup (`eg.Go`). -/
def Op.isGo : Op → Bool
  | .goCloneVM _ _ _ => true
  | .goDeleteVM _ => true
  | .goPowerOn _ => true
  | _ => false

/-- Is the call neither the return of `eg.Wait` nor a status write. -/
def Op.isQuiet : Op → Bool
  | .wait => false
  | .statusUpdate _ => false
  | _ => true

/-- Reads a trace from a point where `pending` tells whether tasks were started through the
errgroup and `eg.Wait` has not returned since: the result is true when no status write is
made while tasks are pending and no task is pending when the trace ends. -/
def settled : Bool → List Op → Bool
  | pending, [] => !pending
  | _, .wait :: t => settled false t
  | pending, .statusUpdate _ :: t => !pending && settled pending t
  | pending, op :: t => settled (pending || op.isGo) t

/-! ## Notions used in the statements -/

/-- The object `vg` once the guard is registered. -/
def withGuard (vg : VmGroup) : VmGroup :=
  if containsString vg.Finalizers finalizerID then vg
  else { vg with Finalizers := vg.Finalizers ++ [finalizerID] }

/-- The pass loads `vg`, which is not marked for deletion, and the guard is present or its
registration is persisted. -/
structure Live (env : Env) (vg : VmGroup) : Prop where
  loaded : env.get = .ok vg
  active : vg.deletionIsZero = true
  guarded : containsString vg.Finalizers finalizerID = true ∨ env.update = none

/-- The backend group is there when the replicas are listed: the lookup found it, or the
lookup reported not-found and the creation succeeded. -/
def GroupReady (env : Env) (vg : VmGroup) : Prop :=
  (∃ f, getVMGroup env (getGroupName vg.Namespace vg.Name) = .ok f) ∨
  (∃ e f, getVMGroup env (getGroupName vg.Namespace vg.Name) = .error e ∧ e.isNfe = true ∧
    createVMGroup env (getGroupName vg.Namespace vg.Name) = .ok f)

/-- A pass that gets a listing: `Live`, `GroupReady`, and `getReplicas` returns `vms`. -/
structure Listed (env : Env) (vg : VmGroup) (vms : List VM) : Prop where
  live : Live env vg
  ready : GroupReady env vg
  listed : getReplicas env (getGroupName vg.Namespace vg.Name) = .ok vms

/-- Does the power-state query on a replica succeed with a state other than "on". -/
def needsPowerOn (c : VmCalls) : Bool :=
  match c.powerState with
  | .ok p => p != PowerState.poweredOn
  | .error _ => false

/-- The replicas of a listing (from index `i` on) whose power state is not "on", in listing
order. -/
def notPoweredOn (env : Env) : Nat → List VM → List VM
  | _, [] => []
  | i, vm :: vms =>
    if needsPowerOn (env.vm i) then vm :: notPoweredOn env (i + 1) vms
    else notPoweredOn env (i + 1) vms

/-- The pass `p` continues the calls `pre` made on the object `vg`: its trace is `pre`
followed by calls among which there is no record update; it leaves the finalizers of `vg`
as they are; and either it returns after one status write, of the status it leaves in
the object, or the process goes down and no status is written. -/
def Continues (p : Pass) (vg : VmGroup) (pre : List Op) : Prop :=
  ∃ rest, p.trace = pre ++ rest ∧ recordUpdates rest = [] ∧ p.vg.Finalizers = vg.Finalizers ∧
    ((p.exit ≠ none ∧ statusWrites rest = [p.vg.Status]) ∨
      (p.exit = none ∧ statusWrites rest = []))

/-- The pass `p` ends on a transient failure: its one status write has phase PENDING, the
desired count `desired` and the message `summary: text of err`, and it asks for a requeue
after 20 seconds. -/
def WritesPending (p : Pass) (desired : Int) (summary : String) (err : Err) : Prop :=
  (∃ current, statusWrites p.trace =
    [{ Phase := "PENDING", CurrentReplicas := current, DesiredReplicas := desired,
       LastMessage := summary ++ ": " ++ err.text }]) ∧
  ∃ e, p.exit = some ({ RequeueAfter := 20 * 1000000000 }, e)

/-- The state of the backend as far as one group goes: whether the group folder is there,
and the replicas in it. -/
structure Inventory where
  present : Bool
  vms : List VM
  deriving DecidableEq, Repr

/-- The state of the backend after the backend operations of a trace have taken effect: a
replica delete removes the replica, a folder deletion removes the folder with what is in
it. -/
def Inventory.after (inv : Inventory) : List Op → Inventory
  | [] => inv
  | .goDeleteVM vm :: t => Inventory.after { inv with vms := inv.vms.erase vm } t
  | .deleteFolder _ :: t => Inventory.after { present := false, vms := [] } t
  | _ :: t => inv.after t

/-- The answers of `env` are those of a backend in the state `inv` whose operations do not
fail: the lookups find the group folder when it is there and report not-found when it is
not; the listing returns the replicas, or reports not-found when there is none; every
power-off request hands back a task, every destroy and the folder deletion succeed. -/
structure Serves (env : Env) (inv : Inventory) : Prop where
  found : inv.present = true → (∃ f, env.groupFolder = .ok f) ∧ ∃ f, env.listFolder = .ok f
  absent : inv.present = false → ∃ e, env.groupFolder = .error e ∧ e.isNfe = true
  listing : env.vmList = .ok inv.vms ∨
    (inv.vms = [] ∧ ∃ e, env.vmList = .error e ∧ e.isNfe = true)
  powerOff : ∀ i, ∃ w, (env.vm i).powerOff = .started w
  destroy : ∀ i, (env.vm i).destroy = .started none
  destroyFolder : env.destroyFolder = .started none

/-! ## Sample inputs -/

/-- A replica for which every backend call succeeds and which is powered on. -/
def healthyVm : VmCalls :=
  { powerState := .ok .poweredOn, powerOn := .started none, powerOff := .started none,
    destroy := .started none }

/-- A clone for which every backend call succeeds. -/
def healthyClone : CloneCalls :=
  { findTemplate := none, findFolder := none, clone := .started none }

/-- The resource `default/web` with the guard registered. -/
def sampleGroup (replicas : Int) : VmGroup :=
  { Name := "web", Namespace := "default", DeletionTimestamp := none,
    Finalizers := [finalizerID],
    Spec := { CPU := 2, Memory := 4, Template := "tmpl", Replicas := replicas },
    Status := { Phase := "", CurrentReplicas := none, DesiredReplicas := 0, LastMessage := "" } }

/-- The replica number `i` of the sample group. -/
def sampleVm (i : Nat) : VM :=
  { name := "web-replica-" ++ toString i,
    InventoryPath := "/vcqaDC/vm/vm-operator/default-web/web-replica-" ++ toString i }

def sampleFolder : Folder := { InventoryPath := "/vcqaDC/vm/vm-operator/default-web" }

/-- A store and a backend in which every call succeeds, the group exists and lists `vms`. -/
def sampleEnv (vg : VmGroup) (vms : List VM) : Env :=
  { get := .ok vg, update := none, statusUpdate := none,
    groupFolder := .ok sampleFolder, rootFolder := .ok { InventoryPath := vmPath },
    createFolder := .ok sampleFolder, listFolder := .ok sampleFolder, vmList := .ok vms,
    clone := fun _ => healthyClone, vm := fun _ => healthyVm,
    destroyFolder := .started none, first := 0, rand := fun k => k }

/-- The error a backend gives when it cannot be reached. -/
def transientErr : Err := { kind := .other, text := "connection refused" }

/-- The error of a lookup that finds nothing (`*find.NotFoundError`). -/
def notFoundErr : Err := { kind := .findNotFound, text := "vm not found" }

/-- The error of a request that was cut short by the cancelled context. -/
def canceledErr : Err := { kind := .other, text := "context canceled" }

/-- The sample backend with no group yet: the lookup reports not-found, the creation
succeeds and the listing of the new group answers `listing`. -/
def freshEnv (vg : VmGroup) (listing : Except Err (List VM)) : Env :=
  { sampleEnv vg [] with
    groupFolder := .error notFoundErr
    vmList := listing }

/-- A healthy replica that is powered off. -/
def poweredOffVm : VmCalls := { healthyVm with powerState := .ok .poweredOff }

/-- The sample backend with desired = 1 and one listed replica, which is powered off. -/
def oneOffEnv : Env :=
  { sampleEnv (sampleGroup 1) [sampleVm 0] with vm := fun _ => poweredOffVm }

/-- The sample backend with desired = 2 and two listed replicas, the second powered off. -/
def secondOffEnv : Env :=
  { sampleEnv (sampleGroup 2) [sampleVm 0, sampleVm 1] with
    vm := fun i => if i = 1 then poweredOffVm else healthyVm }

/-- The sample backend with desired = 2 and four listed replicas. -/
def fourListedEnv : Env :=
  sampleEnv (sampleGroup 2) [sampleVm 0, sampleVm 1, sampleVm 2, sampleVm 3]

/-- The resource `default/web` marked for deletion, with the guard placed between two other
finalizers. -/
def deletingGroup : VmGroup :=
  { sampleGroup 2 with
    DeletionTimestamp := some 1700000000
    Finalizers := ["audit", finalizerID, "backup"] }

/-- The sample backend for the resource marked for deletion, listing two replicas. -/
def deletingEnv : Env := sampleEnv deletingGroup [sampleVm 0, sampleVm 1]

/-- The resource `default/web` before its first pass: no finalizer yet. -/
def unguardedGroup : VmGroup := { sampleGroup 2 with Finalizers := [] }

/-- The sample backend for the resource without guard, with a store that refuses the
record update. -/
def updateFailsEnv : Env :=
  { sampleEnv unguardedGroup [sampleVm 0, sampleVm 1] with update := some transientErr }

/-- The sample backend for the resource without guard, every call succeeding. -/
def unguardedEnv : Env := sampleEnv unguardedGroup [sampleVm 0, sampleVm 1]

/-- The sample backend with no group yet and desired = 2, where the template lookup of the
first clone finds nothing, which is the first failure, and the second clone is cut short
by the cancelled context. -/
def templateMissingEnv : Env :=
  { freshEnv (sampleGroup 2) (.error notFoundErr) with
    clone := fun i =>
      if i = 0 then { healthyClone with findTemplate := some notFoundErr }
      else { healthyClone with findTemplate := some canceledErr }
    first := 0 }

/-- The sample backend with no group yet and desired = 3, where the clone task of the
second replica fails in the backend. -/
def oneCloneFailsEnv : Env :=
  { freshEnv (sampleGroup 3) (.error notFoundErr) with
    clone := fun i =>
      if i = 1 then { healthyClone with clone := .started (some transientErr) }
      else healthyClone }

/-- A replica that cannot be reached for the power-off request (the request fails and
hands back no task), every other call on it succeeding. -/
def unreachableForPowerOff : VmCalls := { healthyVm with powerOff := .failed transientErr }

/-- The sample backend with desired = 2 and four listed replicas, where the power-off
request on the first replica fails. -/
def powerOffFailsEnv : Env :=
  { fourListedEnv with vm := fun i => if i = 0 then unreachableForPowerOff else healthyVm }

/-- The answer of the backend for an object that is gone: its text carries the signature
the code greps for. -/
def alreadyGoneErr : Err :=
  { kind := .other,
    text := "ServerFaultCode: The object has already been deleted or has not been completely created" }

/-- A replica whose destroy request is answered with "already deleted". -/
def goneAtRequest : VmCalls := { healthyVm with destroy := .failed alreadyGoneErr }

/-- A replica whose destroy task is started and then fails with "already deleted". -/
def goneAtWait : VmCalls := { healthyVm with destroy := .started (some alreadyGoneErr) }

/-- The sample backend with desired = 2 and two listed replicas: the first is powered off,
and the power-state query on the second fails. -/
def queryFailsEnv : Env :=
  { sampleEnv (sampleGroup 2) [sampleVm 0, sampleVm 1] with
    vm := fun i =>
      if i = 0 then poweredOffVm else { healthyVm with powerState := .error transientErr } }

/-- The state of the backend in which the group of the sample resource holds two replicas. -/
def twoReplicas : Inventory := { present := true, vms := [sampleVm 0, sampleVm 1] }

/-- The sample backend for the resource marked for deletion when its group is gone. -/
def groupGoneEnv : Env := { deletingEnv with groupFolder := .error notFoundErr }

end VmOperator

namespace VmOperator

/-! ## Lemmas on the control flow of `Reconcile` -/

theorem virtualMachineList_ok {env : Env} {path : String} {vms : List VM}
    (h : virtualMachineList env path = .ok vms) : env.vmList = .ok vms ∧ vms ≠ [] := by
  unfold virtualMachineList at h
  split at h
  · cases h
  · cases h
  · rename_i vm vms' hv
    cases h
    exact ⟨hv, List.cons_ne_nil _ _⟩

theorem getReplicas_ok {env : Env} {group : String} {vms : List VM}
    (h : getReplicas env group = .ok vms) : env.vmList = .ok vms ∧ vms ≠ [] := by
  unfold getReplicas at h
  split at h
  · cases h
  · exact virtualMachineList_ok h

theorem getReplicas_error (env : Env) (group : String) (f : Folder) (e : Err)
    (hf : env.listFolder = .ok f) (hv : env.vmList = .error e) :
    getReplicas env group = .error e := by
  simp only [getReplicas, hf, virtualMachineList, hv]

theorem getReplicas_empty (env : Env) (group : String) (f : Folder)
    (hf : env.listFolder = .ok f) (hv : env.vmList = .ok []) :
    ∃ e, getReplicas env group = .error e ∧ e.isNfe = true := by
  refine ⟨{ kind := .findNotFound,
            text := "vm " ++ String.mk [Char.ofNat 39] ++ (f.InventoryPath ++ "/*") ++
              String.mk [Char.ofNat 39] ++ " not found" }, ?_, rfl⟩
  simp only [getReplicas, hf, virtualMachineList, hv]

theorem getReplicas_cons (env : Env) (group : String) (f : Folder) (vm : VM) (vms : List VM)
    (hf : env.listFolder = .ok f) (hv : env.vmList = .ok (vm :: vms)) :
    getReplicas env group = .ok (vm :: vms) := by
  simp only [getReplicas, hf, virtualMachineList, hv]

theorem reconcile_live {env : Env} {vg : VmGroup} (h : Live env vg) :
    ∃ pre, Reconcile env = reconcileGroup env (withGuard vg) pre ∧
      (∀ op ∈ pre, op.isSetup = true) ∧ pre.head? = some Op.get ∧
      recordUpdates pre =
        (if containsString vg.Finalizers finalizerID then []
         else [vg.Finalizers ++ [finalizerID]]) ∧
      groupCreations pre = [] := by
  obtain ⟨h1, h2, h3⟩ := h
  by_cases hc : containsString vg.Finalizers finalizerID = true
  · refine ⟨[.get], ?_, ?_, ?_, ?_, rfl⟩
    · simp [Reconcile, h1, h2, hc, withGuard]
    · simp [Op.isSetup]
    · simp
    · simp [recordUpdates, hc]
  · have hu : env.update = none := by
      rcases h3 with h3 | h3
      · exact absurd h3 hc
      · exact h3
    simp only [Bool.not_eq_true] at hc
    refine ⟨[.get, .update (vg.Finalizers ++ [finalizerID])], ?_, ?_, ?_, ?_, rfl⟩
    · simp [Reconcile, h1, h2, hc, withGuard, hu]
    · simp [Op.isSetup]
    · simp
    · simp [recordUpdates, hc]

theorem withGuard_spec (vg : VmGroup) :
    (withGuard vg).Spec = vg.Spec ∧ (withGuard vg).Name = vg.Name ∧
      (withGuard vg).Namespace = vg.Namespace := by
  unfold withGuard
  split <;> simp

theorem reconcile_listed {env : Env} {vg : VmGroup} {vms : List VM} (h : Listed env vg vms) :
    ∃ pre, Reconcile env = checkDiffs env (withGuard vg) vms pre ∧
      (∀ op ∈ pre, op.isSetup = true) := by
  obtain ⟨pre, hp, hs, -, -⟩ := reconcile_live h.live
  obtain ⟨hsp, hn, hns⟩ := withGuard_spec vg
  have hl := h.listed
  rcases h.ready with ⟨f, hf⟩ | ⟨e, f, he, hnfe, hf⟩
  · refine ⟨pre ++ [.getVMGroup (getGroupName vg.Namespace vg.Name)] ++
      [.getReplicas (getGroupName vg.Namespace vg.Name)], ?_, ?_⟩
    · rw [hp]
      simp [reconcileGroup, listReplicas, hn, hns, hf, hl]
    · intro op hop
      simp only [List.mem_append, List.mem_singleton] at hop
      rcases hop with (hop | hop) | hop
      · exact hs op hop
      · simp [hop, Op.isSetup]
      · simp [hop, Op.isSetup]
  · refine ⟨pre ++ [.getVMGroup (getGroupName vg.Namespace vg.Name),
      .createVMGroup (getGroupName vg.Namespace vg.Name)] ++
      [.getReplicas (getGroupName vg.Namespace vg.Name)], ?_, ?_⟩
    · rw [hp]
      simp [reconcileGroup, listReplicas, hn, hns, he, hnfe, hf, hl]
    · intro op hop
      simp only [List.mem_append, List.mem_singleton, List.mem_cons, List.mem_nil_iff,
        or_false] at hop
      rcases hop with (hop | hop | hop) | hop
      · exact hs op hop
      · simp [hop, Op.isSetup]
      · simp [hop, Op.isSetup]
      · simp [hop, Op.isSetup]

theorem int32_of_range {x : Int} (h1 : -2147483648 ≤ x) (h2 : x < 2147483648) : int32 x = x := by
  unfold int32
  omega

theorem cloneCount_append (a b : List Op) : cloneCount (a ++ b) = cloneCount a + cloneCount b := by
  simp [cloneCount, List.filterMap_append]

theorem deleteTargets_append (a b : List Op) :
    deleteTargets (a ++ b) = deleteTargets a ++ deleteTargets b := by
  simp [deleteTargets, List.filterMap_append]

theorem powerOnTargets_append (a b : List Op) :
    powerOnTargets (a ++ b) = powerOnTargets a ++ powerOnTargets b := by
  simp [powerOnTargets, List.filterMap_append]

theorem powerQueries_append (a b : List Op) :
    powerQueries (a ++ b) = powerQueries a ++ powerQueries b := by
  simp [powerQueries, List.filterMap_append]

theorem statusWrites_append (a b : List Op) :
    statusWrites (a ++ b) = statusWrites a ++ statusWrites b := by
  simp [statusWrites, List.filterMap_append]

theorem setup_queries {pre : List Op} (h : ∀ op ∈ pre, op.isSetup = true) :
    cloneCount pre = 0 ∧ deleteTargets pre = [] ∧ powerOnTargets pre = [] ∧
      powerQueries pre = [] ∧ statusWrites pre = [] := by
  induction pre with
  | nil => simp [cloneCount, deleteTargets, powerOnTargets, powerQueries, statusWrites]
  | cons op pre ih =>
    have h1 := h op (List.mem_cons_self _ _)
    obtain ⟨i1, i2, i3, i4, i5⟩ := ih fun o ho => h o (List.mem_cons_of_mem _ ho)
    simp only [cloneCount, List.length_eq_zero] at i1
    unfold cloneCount deleteTargets powerOnTargets powerQueries statusWrites at *
    cases op <;> simp_all [Op.isSetup]

theorem cloneOps_queries (env : Env) (vg : VmGroup) (n : Nat) :
    cloneCount (cloneOps env vg n) = n ∧ deleteTargets (cloneOps env vg n) = [] ∧
      powerOnTargets (cloneOps env vg n) = [] ∧ powerQueries (cloneOps env vg n) = [] ∧
      statusWrites (cloneOps env vg n) = [] := by
  refine ⟨?_, ?_, ?_, ?_, ?_⟩
  · have : ∀ l : List Nat, (List.filterMap (fun x =>
        some (vg.Name ++ "-replica-" ++ generateName env.rand x)) l).length = l.length := by
      intro l
      induction l with
      | nil => rfl
      | cons a l ih => simp [List.filterMap_cons, ih]
    simp [cloneCount, cloneOps, List.filterMap_map, Function.comp_def, this]
  all_goals
    simp [deleteTargets, powerOnTargets, powerQueries, statusWrites, cloneOps,
      List.filterMap_map, Function.comp_def]

theorem scaleDownLoop_targets (vms : List VM) (n i : Nat) :
    (scaleDownLoop vms i n).1.map Prod.snd = (vms.drop i).take n := by
  induction n generalizing i with
  | zero => simp [scaleDownLoop]
  | succ n ih =>
    unfold scaleDownLoop
    cases hv : vms[i]? with
    | none =>
      have : vms.length ≤ i := by simpa using hv
      simp [List.drop_eq_nil_of_le this]
    | some vm =>
      have hi : i < vms.length := by
        by_contra hc
        have : vms[i]? = none := by simp; omega
        simp [this] at hv
      have hd : vms.drop i = vm :: vms.drop (i + 1) := by
        rw [List.drop_eq_getElem_cons hi]
        have : vms[i] = vm := by
          have := List.getElem?_eq_getElem hi
          rw [this] at hv
          exact Option.some.inj hv
        rw [this]
      simp [ih, hd]

theorem scaleDownLoop_in_range (vms : List VM) (n i : Nat) (h : i + n ≤ vms.length) :
    (scaleDownLoop vms i n).2 = false := by
  induction n generalizing i with
  | zero => simp [scaleDownLoop]
  | succ n ih =>
    unfold scaleDownLoop
    have hi : i < vms.length := by omega
    rw [List.getElem?_eq_getElem hi]
    simp
    exact ih (i + 1) (by omega)

theorem goDelete_queries (l : List (Nat × VM)) :
    cloneCount (l.map fun p => Op.goDeleteVM p.2) = 0 ∧
      deleteTargets (l.map fun p => Op.goDeleteVM p.2) = l.map Prod.snd ∧
      powerOnTargets (l.map fun p => Op.goDeleteVM p.2) = [] ∧
      powerQueries (l.map fun p => Op.goDeleteVM p.2) = [] ∧
      statusWrites (l.map fun p => Op.goDeleteVM p.2) = [] := by
  induction l with
  | nil => simp [cloneCount, deleteTargets, powerOnTargets, powerQueries, statusWrites]
  | cons a l ih =>
    obtain ⟨i1, i2, i3, i4, i5⟩ := ih
    unfold cloneCount deleteTargets powerOnTargets powerQueries statusWrites at *
    simp_all

theorem powerLoop_queries (env : Env) (vms : List VM) (i : Nat) :
    cloneCount (powerLoop env i vms).1 = 0 ∧ deleteTargets (powerLoop env i vms).1 = [] ∧
      statusWrites (powerLoop env i vms).1 = [] := by
  induction vms generalizing i with
  | nil => simp [powerLoop, cloneCount, deleteTargets, statusWrites]
  | cons vm vms ih =>
    obtain ⟨i1, i2, i3⟩ := ih (i + 1)
    unfold powerLoop
    unfold cloneCount deleteTargets statusWrites at *
    cases isPoweredOn (env.vm i) with
    | error e => simp
    | ok b => cases b <;> simp_all

theorem scaleUp_trace (env : Env) (vg : VmGroup) (current : Int) (pre : List Op) :
    (scaleUp env vg current pre).trace =
      pre ++ cloneOps env vg (int32 (vg.Spec.Replicas - current)).toNat ++
        [Op.wait, Op.statusUpdate (scaleUp env vg current pre).vg.Status] ∧
    (scaleUp env vg current pre).exit ≠ none := by
  unfold scaleUp
  dsimp only
  split
  · split <;> simp [statusExit]
  · simp [statusExit, running]

theorem scaleDown_trace (env : Env) (vg : VmGroup) (vms : List VM) (current : Int)
    (pre : List Op) (hret : (scaleDown env vg vms current pre).exit ≠ none) :
    (scaleDown env vg vms current pre).trace =
      pre ++ ((scaleDownLoop vms 0 (int32 (current - vg.Spec.Replicas)).toNat).1.map
        fun p => Op.goDeleteVM p.2) ++
        [Op.wait, Op.statusUpdate (scaleDown env vg vms current pre).vg.Status] := by
  by_cases hc : ((scaleDownLoop vms 0 (int32 (current - vg.Spec.Replicas)).toNat).2 ||
      (deleteResults env
        (scaleDownLoop vms 0 (int32 (current - vg.Spec.Replicas)).toNat).1).contains
          Exit.crashed) = true
  · exfalso
    apply hret
    unfold scaleDown
    dsimp only
    rw [if_pos hc]
  · unfold scaleDown running
    dsimp only
    rw [if_neg hc]
    split <;> simp [statusExit]

theorem checkPower_trace (env : Env) (vg : VmGroup) (vms : List VM) (current : Int)
    (pre : List Op) :
    ∃ tl, (checkPower env vg vms current pre).trace = pre ++ (powerLoop env 0 vms).1 ++ tl ∧
      (checkPower env vg vms current pre).exit ≠ none ∧
      ((tl = [Op.statusUpdate (checkPower env vg vms current pre).vg.Status] ∧
          (powerLoop env 0 vms).2.2 ≠ none) ∨
        (tl = [Op.wait, Op.statusUpdate (checkPower env vg vms current pre).vg.Status] ∧
          (powerLoop env 0 vms).2.2 = none)) := by
  unfold checkPower
  dsimp only
  split
  · rename_i ops rs vm err heq
    exact ⟨_, by simp [statusExit, heq], by simp [statusExit],
      Or.inl ⟨rfl, by simp [heq]⟩⟩
  · rename_i ops rs heq
    split
    · exact ⟨_, by simp [statusExit, heq], by simp [statusExit],
        Or.inr ⟨rfl, by simp [heq]⟩⟩
    · exact ⟨_, by simp [statusExit, heq, running], by simp [statusExit, running],
        Or.inr ⟨rfl, by simp [heq]⟩⟩

theorem powerLoop_all_queried (env : Env) (vms : List VM) (i : Nat)
    (hq : ∀ j, j < vms.length → ∃ p, (env.vm (i + j)).powerState = .ok p) :
    (powerLoop env i vms).2.2 = none ∧
      powerQueries (powerLoop env i vms).1 = vms ∧
      powerOnTargets (powerLoop env i vms).1 = notPoweredOn env i vms := by
  induction vms generalizing i with
  | nil => simp [powerLoop, powerQueries, powerOnTargets, notPoweredOn]
  | cons vm vms ih =>
    obtain ⟨p, hp⟩ := hq 0 (by simp)
    rw [Nat.add_zero] at hp
    have hq' : ∀ j, j < vms.length → ∃ p, (env.vm (i + 1 + j)).powerState = .ok p := by
      intro j hj
      have := hq (j + 1) (by simp; omega)
      rwa [show i + (j + 1) = i + 1 + j by omega] at this
    obtain ⟨i1, i2, i3⟩ := ih (i + 1) hq'
    unfold powerLoop notPoweredOn
    unfold powerQueries powerOnTargets at *
    cases p <;> simp_all [isPoweredOn, needsPowerOn]

theorem powerLoop_no_failure (env : Env) (vms : List VM) (i : Nat)
    (hon : ∀ j, j < vms.length → needsPowerOn (env.vm (i + j)) = true →
      powerOnTask (env.vm (i + j)) = none) :
    failures (powerLoop env i vms).2.1 = [] := by
  induction vms generalizing i with
  | nil => simp [powerLoop, failures]
  | cons vm vms ih =>
    have h0 := hon 0 (by simp)
    rw [Nat.add_zero] at h0
    have hon' : ∀ j, j < vms.length → needsPowerOn (env.vm (i + 1 + j)) = true →
        powerOnTask (env.vm (i + 1 + j)) = none := by
      intro j hj
      have := hon (j + 1) (by simp; omega)
      rwa [show i + (j + 1) = i + 1 + j by omega] at this
    have ih' := ih (i + 1) hon'
    unfold powerLoop
    cases hp : (env.vm i).powerState with
    | error e => simp [isPoweredOn, hp, failures]
    | ok p =>
      cases p <;> simp_all [isPoweredOn, needsPowerOn, failures]

theorem checkPower_running (env : Env) (vg : VmGroup) (vms : List VM) (current : Int)
    (pre : List Op) (h1 : (powerLoop env 0 vms).2.2 = none)
    (h2 : failures (powerLoop env 0 vms).2.1 = []) :
    checkPower env vg vms current pre =
      running env vg current (pre ++ (powerLoop env 0 vms).1 ++ [Op.wait]) := by
  unfold checkPower
  dsimp only
  split
  · rename_i ops rs vm err heq
    simp [heq] at h1
  · rename_i ops rs heq
    simp only [heq] at h2
    simp [h2, egWait, heq]

theorem recordUpdates_append (a b : List Op) :
    recordUpdates (a ++ b) = recordUpdates a ++ recordUpdates b := by
  simp [recordUpdates, List.filterMap_append]

theorem goDeleteVM_no_store_call (vms : List VM) :
    recordUpdates (vms.map Op.goDeleteVM) = [] ∧ statusWrites (vms.map Op.goDeleteVM) = [] := by
  induction vms with
  | nil => simp [recordUpdates, statusWrites]
  | cons vm vms ih =>
    obtain ⟨i1, i2⟩ := ih
    unfold recordUpdates statusWrites at *
    simp_all

theorem deleteExternalResources_no_store_call (env : Env) (vg : VmGroup) :
    recordUpdates (deleteExternalResources env vg).1 = [] ∧
      statusWrites (deleteExternalResources env vg).1 = [] := by
  unfold deleteExternalResources
  dsimp only
  split
  · split <;> simp [recordUpdates, statusWrites]
  · split
    · split <;> simp [recordUpdates, statusWrites]
    · rename_i vms _
      obtain ⟨g1, g2⟩ := goDeleteVM_no_store_call vms
      split
      · simp only [recordUpdates_append, statusWrites_append, g1, g2]
        simp [recordUpdates, statusWrites]
      · split
        · simp only [recordUpdates_append, statusWrites_append, g1, g2]
          simp [recordUpdates, statusWrites]
        · simp only [recordUpdates_append, statusWrites_append, g1, g2]
          simp [recordUpdates, statusWrites]

theorem removeString_eq_filter (slice : List String) (s : String) :
    removeString slice s = slice.filter fun item => item ≠ s := by
  induction slice with
  | nil => rfl
  | cons item slice ih =>
    unfold removeString
    by_cases h : item = s <;> simp [h, ih]

theorem containsString_iff (slice : List String) (s : String) :
    containsString slice s = true ↔ s ∈ slice := by
  induction slice with
  | nil => simp [containsString]
  | cons item slice ih =>
    unfold containsString
    by_cases h : item = s
    · simp [h]
    · have h' : ¬ s = item := fun e => h e.symm
      simp [h, h', ih]

theorem recordUpdates_get (t : List Op) : recordUpdates (Op.get :: t) = recordUpdates t := rfl

theorem statusWrites_get (t : List Op) : statusWrites (Op.get :: t) = statusWrites t := rfl

theorem recordUpdates_update (fs : List String) : recordUpdates [Op.update fs] = [fs] := rfl

theorem statusWrites_update (fs : List String) : statusWrites [Op.update fs] = [] := rfl

theorem statusExit_continues (env : Env) (vg : VmGroup) (pre mid : List Op) (res : Result)
    (st : VmGroupStatus) (h1 : recordUpdates mid = []) (h2 : statusWrites mid = []) :
    Continues (statusExit env vg (pre ++ mid) res st) vg pre := by
  refine ⟨mid ++ [Op.statusUpdate st], ?_, ?_, rfl, Or.inl ⟨?_, ?_⟩⟩
  · simp [statusExit]
  · rw [recordUpdates_append, h1]
    rfl
  · simp [statusExit]
  · rw [statusWrites_append, h2]
    rfl

theorem cloneOps_no_store_call (env : Env) (vg : VmGroup) (n : Nat) :
    recordUpdates (cloneOps env vg n ++ [Op.wait]) = [] ∧
      statusWrites (cloneOps env vg n ++ [Op.wait]) = [] := by
  simp [recordUpdates, statusWrites, cloneOps, List.filterMap_map, Function.comp_def]

theorem createReplicas_continues (env : Env) (vg : VmGroup) (pre : List Op) :
    Continues (createReplicas env vg pre) vg pre := by
  obtain ⟨c1, c2⟩ := cloneOps_no_store_call env vg vg.Spec.Replicas.toNat
  unfold createReplicas
  dsimp only
  simp only [List.append_assoc]
  split
  · split <;> exact statusExit_continues env vg pre _ _ _ c1 c2
  · exact statusExit_continues env vg pre _ _ _ c1 c2

theorem scaleUp_continues (env : Env) (vg : VmGroup) (current : Int) (pre : List Op) :
    Continues (scaleUp env vg current pre) vg pre := by
  obtain ⟨c1, c2⟩ := cloneOps_no_store_call env vg (int32 (vg.Spec.Replicas - current)).toNat
  unfold scaleUp running
  dsimp only
  simp only [List.append_assoc]
  split
  · split <;> exact statusExit_continues env vg pre _ _ _ c1 c2
  · exact statusExit_continues env vg pre _ _ _ c1 c2

theorem goDelete_no_store_call (l : List (Nat × VM)) (tl : List Op)
    (h1 : recordUpdates tl = []) (h2 : statusWrites tl = []) :
    recordUpdates ((l.map fun p => Op.goDeleteVM p.2) ++ tl) = [] ∧
      statusWrites ((l.map fun p => Op.goDeleteVM p.2) ++ tl) = [] := by
  rw [recordUpdates_append, statusWrites_append, h1, h2]
  induction l with
  | nil => simp [recordUpdates, statusWrites]
  | cons a l ih =>
    obtain ⟨i1, i2⟩ := ih
    unfold recordUpdates statusWrites at *
    simp_all

theorem scaleDown_continues (env : Env) (vg : VmGroup) (vms : List VM) (current : Int)
    (pre : List Op) : Continues (scaleDown env vg vms current pre) vg pre := by
  unfold scaleDown running
  dsimp only
  split
  · obtain ⟨g1, g2⟩ := goDelete_no_store_call
      (handedUntilCrash env
        (scaleDownLoop vms 0 (int32 (current - vg.Spec.Replicas)).toNat).1) [] rfl rfl
    rw [List.append_nil] at g1 g2
    exact ⟨_, rfl, g1, rfl, Or.inr ⟨rfl, g2⟩⟩
  · obtain ⟨g1, g2⟩ := goDelete_no_store_call
      (scaleDownLoop vms 0 (int32 (current - vg.Spec.Replicas)).toNat).1 [Op.wait] rfl rfl
    simp only [List.append_assoc]
    split
    · exact statusExit_continues env vg pre _ _ _ g1 g2
    · exact statusExit_continues env vg pre _ _ _ g1 g2

theorem powerLoop_no_store_call (env : Env) (vms : List VM) (i : Nat) :
    recordUpdates (powerLoop env i vms).1 = [] ∧ statusWrites (powerLoop env i vms).1 = [] := by
  induction vms generalizing i with
  | nil => simp [powerLoop, recordUpdates, statusWrites]
  | cons vm vms ih =>
    obtain ⟨i1, i2⟩ := ih (i + 1)
    unfold powerLoop
    unfold recordUpdates statusWrites at *
    cases isPoweredOn (env.vm i) with
    | error e => simp
    | ok b => cases b <;> simp_all

theorem checkPower_continues (env : Env) (vg : VmGroup) (vms : List VM) (current : Int)
    (pre : List Op) : Continues (checkPower env vg vms current pre) vg pre := by
  obtain ⟨g1, g2⟩ := powerLoop_no_store_call env vms 0
  unfold checkPower running
  dsimp only
  split
  · rename_i ops rs vm err heq
    rw [heq] at g1 g2
    exact statusExit_continues env vg pre _ _ _ g1 g2
  · rename_i ops rs heq
    rw [heq] at g1 g2
    simp only at g1 g2
    have w1 : recordUpdates (ops ++ [Op.wait]) = [] := by
      rw [recordUpdates_append, g1]
      rfl
    have w2 : statusWrites (ops ++ [Op.wait]) = [] := by
      rw [statusWrites_append, g2]
      rfl
    simp only [List.append_assoc]
    split
    · exact statusExit_continues env vg pre _ _ _ w1 w2
    · exact statusExit_continues env vg pre _ _ _ w1 w2

theorem checkDiffs_continues (env : Env) (vg : VmGroup) (vms : List VM) (pre : List Op) :
    Continues (checkDiffs env vg vms pre) vg pre := by
  unfold checkDiffs
  dsimp only
  split
  · exact scaleUp_continues env vg _ pre
  · split
    · exact scaleDown_continues env vg vms _ pre
    · exact checkPower_continues env vg vms _ pre

theorem continues_after {p : Pass} {vg : VmGroup} {pre mid : List Op}
    (h : Continues p vg (pre ++ mid)) (h1 : recordUpdates mid = [])
    (h2 : statusWrites mid = []) : Continues p vg pre := by
  obtain ⟨rest, ht, hr, hf, hs⟩ := h
  refine ⟨mid ++ rest, ?_, ?_, hf, ?_⟩
  · rw [ht, List.append_assoc]
  · rw [recordUpdates_append, h1, hr]
    rfl
  · rw [statusWrites_append, h2, List.nil_append]
    exact hs

theorem listReplicas_continues (env : Env) (vg : VmGroup) (pre : List Op) :
    Continues (listReplicas env vg pre) vg pre := by
  unfold listReplicas
  dsimp only
  split
  · split
    · exact continues_after (createReplicas_continues env vg _) rfl rfl
    · exact statusExit_continues env vg pre _ _ _ rfl rfl
  · exact continues_after (checkDiffs_continues env vg _ _) rfl rfl

theorem reconcileGroup_continues (env : Env) (vg : VmGroup) (pre : List Op) :
    Continues (reconcileGroup env vg pre) vg pre := by
  unfold reconcileGroup
  dsimp only
  split
  · split
    · split
      · exact statusExit_continues env vg pre _ _ _ rfl rfl
      · exact continues_after (listReplicas_continues env vg _) rfl rfl
    · exact statusExit_continues env vg pre _ _ _ rfl rfl
  · exact continues_after (listReplicas_continues env vg _) rfl rfl

theorem deleteVM_returns (c : VmCalls) (vm : VM) (h : ∀ e, c.powerOff ≠ .failed e) :
    (deleteVM c vm).2 ≠ .crashed := by
  unfold deleteVM
  split
  · rename_i e he
    exact absurd he (h e)
  · split
    · split <;> simp
    · simp
    · simp

theorem scaleDown_returns (env : Env) (vg : VmGroup) (vms : List VM) (pre : List Op)
    (hoff : ∀ i e, (env.vm i).powerOff ≠ .failed e) (hd : 0 ≤ vg.Spec.Replicas)
    (hl : vms.length < 2147483648) (hgt : int32 vms.length > vg.Spec.Replicas) :
    (scaleDown env vg vms (int32 vms.length) pre).exit ≠ none := by
  have hcur : int32 (vms.length : Int) = vms.length := int32_of_range (by omega) (by omega)
  rw [hcur] at hgt ⊢
  have hdiff : int32 (vms.length - vg.Spec.Replicas) = vms.length - vg.Spec.Replicas :=
    int32_of_range (by omega) (by omega)
  have hrange := scaleDownLoop_in_range vms ((vms.length : Int) - vg.Spec.Replicas).toNat 0
    (by omega)
  unfold scaleDown running
  dsimp only
  rw [hdiff, hrange]
  have hnc : (deleteResults env
      (scaleDownLoop vms 0 ((vms.length : Int) - vg.Spec.Replicas).toNat).1).contains
        Exit.crashed = false := by
    generalize (scaleDownLoop vms 0 ((vms.length : Int) - vg.Spec.Replicas).toNat).1 = l
    unfold deleteResults
    induction l with
    | nil => rfl
    | cons p l ih =>
      have hp := deleteVM_returns (env.vm p.1) p.2 (hoff p.1)
      rw [List.map_cons, List.contains_cons, ih, Bool.or_false]
      cases hx : (deleteVM (env.vm p.1) p.2).2 with
      | crashed => exact absurd hx hp
      | returned e => rfl
  rw [hnc, Bool.or_false, if_neg (by decide)]
  split
  · exact fun h => nomatch h
  · exact fun h => nomatch h

theorem reconcileGroup_returns (env : Env) (vg : VmGroup) (pre : List Op)
    (hoff : ∀ i e, (env.vm i).powerOff ≠ .failed e) (hd : 0 ≤ vg.Spec.Replicas)
    (hl : ∀ vms, env.vmList = .ok vms → vms.length < 2147483648) :
    (reconcileGroup env vg pre).exit ≠ none := by
  have hlist : ∀ pre, (listReplicas env vg pre).exit ≠ none := by
    intro pre
    unfold listReplicas
    dsimp only
    split
    · split
      · unfold createReplicas
        dsimp only
        split
        · split <;> simp [statusExit]
        · simp [statusExit]
      · simp [statusExit]
    · rename_i vms hvms
      have hvl : env.vmList = .ok vms := (getReplicas_ok hvms).1
      unfold checkDiffs
      dsimp only
      split
      · exact (scaleUp_trace env vg _ _).2
      · split
        · rename_i hgt
          exact scaleDown_returns env vg vms _ hoff hd (hl vms hvl) hgt
        · obtain ⟨tl, -, hne, -⟩ := checkPower_trace env vg vms (int32 vms.length)
            (pre ++ [Op.getReplicas (getGroupName vg.Namespace vg.Name)])
          exact hne
  unfold reconcileGroup
  dsimp only
  split
  · split
    · split
      · simp [statusExit]
      · exact hlist _
    · simp [statusExit]
  · exact hlist _

theorem reconcile_ready {env : Env} {vg : VmGroup} (h : Live env vg) (hg : GroupReady env vg) :
    ∃ pre, Reconcile env = listReplicas env (withGuard vg) pre ∧
      (∀ op ∈ pre, op.isSetup = true) := by
  obtain ⟨pre, hp, hs, -, -⟩ := reconcile_live h
  obtain ⟨hsp, hn, hns⟩ := withGuard_spec vg
  rcases hg with ⟨f, hf⟩ | ⟨e, f, he, hnfe, hf⟩
  · refine ⟨pre ++ [.getVMGroup (getGroupName vg.Namespace vg.Name)], ?_, ?_⟩
    · rw [hp]
      simp [reconcileGroup, hn, hns, hf]
    · intro op hop
      simp only [List.mem_append, List.mem_singleton] at hop
      rcases hop with hop | hop
      · exact hs op hop
      · simp [hop, Op.isSetup]
  · refine ⟨pre ++ [.getVMGroup (getGroupName vg.Namespace vg.Name),
      .createVMGroup (getGroupName vg.Namespace vg.Name)], ?_, ?_⟩
    · rw [hp]
      simp [reconcileGroup, hn, hns, he, hnfe, hf]
    · intro op hop
      simp only [List.mem_append, List.mem_singleton, List.mem_cons, List.mem_nil_iff,
        or_false] at hop
      rcases hop with hop | hop | hop
      · exact hs op hop
      · simp [hop, Op.isSetup]
      · simp [hop, Op.isSetup]

theorem statusExit_pending (env : Env) (vg : VmGroup) (ops : List Op) (summary : String)
    (err : Err) (current : Option Int) (h : statusWrites ops = []) :
    WritesPending (statusExit env vg ops { RequeueAfter := defaultRequeue }
      (createStatus PendingStatusPhase summary (some err) current vg.Spec.Replicas))
      vg.Spec.Replicas summary err := by
  refine ⟨⟨current, ?_⟩, ⟨_, rfl⟩⟩
  simp only [statusExit, statusWrites_append, h, List.nil_append]
  rfl

theorem egWait_mem {first : Nat} {errs : List Err} {err : Err}
    (h : egWait first errs = some err) : err ∈ errs := by
  cases errs with
  | nil => simp [egWait] at h
  | cons e es =>
    simp only [egWait, Option.some.injEq] at h
    rw [← h, List.getD_eq_getElem?_getD]
    have hlt : first % (es.length + 1) < (e :: es).length := by
      simpa using Nat.mod_lt first (Nat.succ_pos es.length)
    rw [List.getElem?_eq_getElem hlt]
    exact List.getElem_mem _

theorem cloneErrs_withGuard (env : Env) (vg : VmGroup) (n : Nat) :
    cloneErrs env (withGuard vg) n = cloneErrs env vg n := by
  unfold cloneErrs
  rw [(withGuard_spec vg).2.1]

theorem clone_branch_no_status (env : Env) (vg : VmGroup) (pre : List Op) (g : String)
    (n : Nat) (hs : ∀ op ∈ pre, op.isSetup = true) :
    statusWrites (pre ++ [Op.getReplicas g] ++ cloneOps env vg n ++ [Op.wait]) = [] := by
  obtain ⟨-, -, -, -, p5⟩ := setup_queries hs
  obtain ⟨-, -, -, -, c5⟩ := cloneOps_queries env vg n
  simp only [statusWrites_append, p5, c5, List.nil_append]
  rfl

theorem delete_branch_no_status (pre : List Op) (g : String) (l : List (Nat × VM))
    (hs : ∀ op ∈ pre, op.isSetup = true) :
    statusWrites (pre ++ [Op.getReplicas g] ++ (l.map fun p => Op.goDeleteVM p.2) ++
      [Op.wait]) = [] := by
  obtain ⟨-, -, -, -, p5⟩ := setup_queries hs
  obtain ⟨-, -, -, -, d5⟩ := goDelete_queries l
  simp only [statusWrites_append, p5, d5, List.nil_append]
  rfl

theorem power_branch_no_status (env : Env) (pre : List Op) (g : String) (vms : List VM)
    (hs : ∀ op ∈ pre, op.isSetup = true) :
    statusWrites (pre ++ [Op.getReplicas g] ++ (powerLoop env 0 vms).1) = [] ∧
      statusWrites (pre ++ [Op.getReplicas g] ++ (powerLoop env 0 vms).1 ++ [Op.wait]) = [] := by
  obtain ⟨-, -, -, -, p5⟩ := setup_queries hs
  obtain ⟨-, -, q5⟩ := powerLoop_queries env vms 0
  simp only [statusWrites_append, p5, q5, List.nil_append]
  exact ⟨rfl, rfl⟩

theorem scaleDown_failure (env : Env) (vg : VmGroup) (vms : List VM) (current : Int)
    (pre : List Op) (err : Err)
    (hret : (scaleDown env vg vms current pre).exit ≠ none)
    (hw : egWait env.first (failures (deleteResults env
      (scaleDownLoop vms 0 (int32 (current - vg.Spec.Replicas)).toNat).1)) = some err) :
    scaleDown env vg vms current pre =
      statusExit env vg
        (pre ++ ((scaleDownLoop vms 0 (int32 (current - vg.Spec.Replicas)).toNat).1.map
          fun p => Op.goDeleteVM p.2) ++ [Op.wait])
        { RequeueAfter := defaultRequeue }
        (createStatus PendingStatusPhase "could not delete replica(s)" (some err)
          (some current) vg.Spec.Replicas) := by
  by_cases hc : ((scaleDownLoop vms 0 (int32 (current - vg.Spec.Replicas)).toNat).2 ||
      (deleteResults env
        (scaleDownLoop vms 0 (int32 (current - vg.Spec.Replicas)).toNat).1).contains
          Exit.crashed) = true
  · exfalso
    apply hret
    unfold scaleDown
    dsimp only
    rw [if_pos hc]
  · unfold scaleDown
    dsimp only
    rw [if_neg hc, hw]

theorem fillBucket_spec (n cap len : Nat) (h : len + n ≤ cap) :
    fillBucket n { cap := cap, len := len } = some { cap := cap, len := len + n } := by
  induction n generalizing len with
  | zero => rfl
  | succ n ih =>
    have hlt : len < cap := by omega
    simp only [fillBucket, Chan.send, hlt, if_true, Option.some_bind]
    rw [ih (len + 1) (by omega)]
    congr 2
    omega

theorem newLimiter_spec (C : Int) (h : 0 ≤ C) :
    newLimiter C = some { bucket := { cap := C.toNat, len := C.toNat } } := by
  unfold newLimiter
  rw [if_neg (by omega), fillBucket_spec C.toNat C.toNat 0 (by omega)]
  simp

theorem limiter_step_invariant (s t : LimState) (a : LimAction)
    (hinv : s.lim.bucket.len + s.holders.length = s.lim.bucket.cap)
    (hrel : ∀ c, a = .release c → c ∈ s.holders)
    (hstep : s.step a = some t) :
    t.lim.bucket.len + t.holders.length = t.lim.bucket.cap ∧
      t.lim.bucket.cap = s.lim.bucket.cap := by
  obtain ⟨⟨⟨cap, len⟩⟩, hs⟩ := s
  simp only at hinv hrel
  cases a with
  | acquire c =>
    simp only [LimState.step, limiter.acquire, Chan.recv, Option.map_eq_some'] at hstep
    obtain ⟨l, ⟨b, hb, rfl⟩, rfl⟩ := hstep
    split at hb
    · cases hb
      simp only [List.length_cons]
      exact ⟨by omega, trivial⟩
    · cases hb
  | release c =>
    have hc := hrel c rfl
    simp only [LimState.step, limiter.release, Chan.send, Option.map_eq_some'] at hstep
    obtain ⟨l, ⟨b, hb, rfl⟩, rfl⟩ := hstep
    split at hb
    · cases hb
      have hpos : 0 < hs.length := List.length_pos_of_mem hc
      simp only [List.length_erase_of_mem hc]
      exact ⟨by omega, trivial⟩
    · cases hb

theorem limiter_run_invariant (as bs : List LimAction) (s t : LimState)
    (hinv : s.lim.bucket.len + s.holders.length = s.lim.bucket.cap)
    (hrel : releasesByHolders s.holders (as ++ bs) = true)
    (hrun : s.run as = some t) :
    t.lim.bucket.len + t.holders.length = t.lim.bucket.cap ∧
      t.lim.bucket.cap = s.lim.bucket.cap := by
  induction as generalizing s with
  | nil =>
    simp only [LimState.run, Option.some.injEq] at hrun
    subst hrun
    exact ⟨hinv, rfl⟩
  | cons a as ih =>
    simp only [LimState.run, Option.bind_eq_some] at hrun
    obtain ⟨u, hu, hrest⟩ := hrun
    cases a with
    | acquire c =>
      obtain ⟨h1, h2⟩ := limiter_step_invariant s u (.acquire c) hinv
        (fun c' hc' => by cases hc') hu
      have hh : u.holders = c :: s.holders := by
        simp only [LimState.step, Option.map_eq_some'] at hu
        obtain ⟨l, -, rfl⟩ := hu
        rfl
      have hrel' : releasesByHolders u.holders (as ++ bs) = true := by
        rw [hh]
        simpa [releasesByHolders] using hrel
      obtain ⟨h3, h4⟩ := ih u h1 hrel' hrest
      exact ⟨h3, h4.trans h2⟩
    | release c =>
      simp only [List.cons_append, releasesByHolders, Bool.and_eq_true] at hrel
      obtain ⟨hmem, hrel'⟩ := hrel
      replace hmem : c ∈ s.holders := by simpa using hmem
      obtain ⟨h1, h2⟩ := limiter_step_invariant s u (.release c) hinv
        (fun c' hc' => by cases hc'; exact hmem) hu
      have hh : u.holders = s.holders.erase c := by
        simp only [LimState.step, Option.map_eq_some'] at hu
        obtain ⟨l, -, rfl⟩ := hu
        rfl
      obtain ⟨h3, h4⟩ := ih u h1 (by rw [hh]; exact hrel') hrest
      exact ⟨h3, h4.trans h2⟩

theorem limiter_acquires (cs : List Nat) (s : LimState) (h : cs.length ≤ s.lim.bucket.len) :
    ∃ t, s.run (cs.map LimAction.acquire) = some t ∧
      t.lim.bucket.len = s.lim.bucket.len - cs.length := by
  induction cs generalizing s with
  | nil => exact ⟨s, rfl, rfl⟩
  | cons c cs ih =>
    simp only [List.length_cons] at h
    have hpos : 0 < s.lim.bucket.len := by omega
    obtain ⟨t, ht, hlen⟩ := ih
      { lim := { bucket := { s.lim.bucket with len := s.lim.bucket.len - 1 } },
        holders := c :: s.holders } (by simp only; omega)
    refine ⟨t, ?_, ?_⟩
    · simp only [List.map_cons, LimState.run, LimState.step, limiter.acquire, Chan.recv, hpos,
        if_true, Option.map_some', Option.some_bind]
      exact ht
    · rw [hlen]
      simp only [List.length_cons]
      omega

theorem groupCreations_append (a b : List Op) :
    groupCreations (a ++ b) = groupCreations a ++ groupCreations b := by
  simp [groupCreations, List.filterMap_append]

theorem cloneOps_no_group_creation (env : Env) (vg : VmGroup) (n : Nat) :
    groupCreations (cloneOps env vg n) = [] := by
  simp [groupCreations, cloneOps, List.filterMap_map, Function.comp_def]

theorem scaleUp_status (env : Env) (vg : VmGroup) (current : Int) (pre : List Op) :
    (scaleUp env vg current pre).vg.Status.CurrentReplicas = some current ∧
      (scaleUp env vg current pre).vg.Status.DesiredReplicas = vg.Spec.Replicas := by
  unfold scaleUp running
  dsimp only
  split
  · split <;> exact ⟨rfl, rfl⟩
  · exact ⟨rfl, rfl⟩

theorem scaleDown_status (env : Env) (vg : VmGroup) (vms : List VM) (current : Int)
    (pre : List Op) (hret : (scaleDown env vg vms current pre).exit ≠ none) :
    (scaleDown env vg vms current pre).vg.Status.CurrentReplicas = some current ∧
      (scaleDown env vg vms current pre).vg.Status.DesiredReplicas = vg.Spec.Replicas := by
  by_cases hc : ((scaleDownLoop vms 0 (int32 (current - vg.Spec.Replicas)).toNat).2 ||
      (deleteResults env
        (scaleDownLoop vms 0 (int32 (current - vg.Spec.Replicas)).toNat).1).contains
          Exit.crashed) = true
  · exfalso
    apply hret
    unfold scaleDown
    dsimp only
    rw [if_pos hc]
  · unfold scaleDown running
    dsimp only
    rw [if_neg hc]
    split <;> exact ⟨rfl, rfl⟩

theorem checkPower_status (env : Env) (vg : VmGroup) (vms : List VM) (current : Int)
    (pre : List Op) :
    (checkPower env vg vms current pre).vg.Status.CurrentReplicas = some current ∧
      (checkPower env vg vms current pre).vg.Status.DesiredReplicas = vg.Spec.Replicas := by
  unfold checkPower running
  dsimp only
  split
  · exact ⟨rfl, rfl⟩
  · split <;> exact ⟨rfl, rfl⟩

theorem checkDiffs_status_count (env : Env) (vg : VmGroup) (vms : List VM) (pre : List Op)
    (hret : (checkDiffs env vg vms pre).exit ≠ none) :
    (checkDiffs env vg vms pre).vg.Status.CurrentReplicas = some (int32 vms.length) ∧
      (checkDiffs env vg vms pre).vg.Status.DesiredReplicas = vg.Spec.Replicas := by
  by_cases hlt : int32 vms.length < vg.Spec.Replicas
  · have hsw : checkDiffs env vg vms pre = scaleUp env vg (int32 vms.length) pre := by
      unfold checkDiffs
      dsimp only
      rw [if_pos hlt]
    rw [hsw]
    exact scaleUp_status env vg _ pre
  · by_cases hgt : int32 vms.length > vg.Spec.Replicas
    · have hsw : checkDiffs env vg vms pre = scaleDown env vg vms (int32 vms.length) pre := by
        unfold checkDiffs
        dsimp only
        rw [if_neg hlt, if_pos hgt]
      rw [hsw] at hret ⊢
      exact scaleDown_status env vg vms _ pre hret
    · have hsw : checkDiffs env vg vms pre = checkPower env vg vms (int32 vms.length) pre := by
        unfold checkDiffs
        dsimp only
        rw [if_neg hlt, if_neg hgt]
      rw [hsw]
      exact checkPower_status env vg vms _ pre

/-- What the code does in general on a pass that gets a listing and returns: whatever the
branch and its outcome, the one status written carries as currentReplicas the length of the
listing, taken before the branch's actions. -/
theorem reconcile_status_reports_listed_count (env : Env) (vg : VmGroup) (vms : List VM)
    (h : Listed env vg vms) (hret : (Reconcile env).exit ≠ none) :
    statusWrites (Reconcile env).trace = [(Reconcile env).vg.Status] ∧
      (Reconcile env).vg.Status.CurrentReplicas = some (int32 vms.length) ∧
      (Reconcile env).vg.Status.DesiredReplicas = vg.Spec.Replicas := by
  obtain ⟨pre, hp, hs⟩ := reconcile_listed h
  obtain ⟨-, -, -, -, p5⟩ := setup_queries hs
  obtain ⟨hsp, -, -⟩ := withGuard_spec vg
  obtain ⟨rest, ht, -, -, hex⟩ := checkDiffs_continues env (withGuard vg) vms pre
  rw [hp] at hret ⊢
  obtain ⟨c1, c2⟩ := checkDiffs_status_count env (withGuard vg) vms pre hret
  refine ⟨?_, c1, by rw [c2, hsp]⟩
  rcases hex with ⟨-, hw⟩ | ⟨he, -⟩
  · rw [ht, statusWrites_append, p5, hw]
    rfl
  · exact absurd he hret

/-- What the code does on the first pass when the listing of the new group reports
not-found and every clone succeeds: one group creation, `desired` clones, the status
RUNNING with currentReplicas = desired, and no requeue. -/
theorem reconcile_fresh_group_not_found_listing (env : Env) (vg : VmGroup) (e e' : Err)
    (f : Folder) (h : Live env vg)
    (hlook : getVMGroup env (getGroupName vg.Namespace vg.Name) = .error e)
    (hnfe : e.isNfe = true)
    (hcreate : createVMGroup env (getGroupName vg.Namespace vg.Name) = .ok f)
    (hlist : getReplicas env (getGroupName vg.Namespace vg.Name) = .error e')
    (hnfe' : e'.isNfe = true)
    (hclones : cloneErrs env vg vg.Spec.Replicas.toNat = []) :
    groupCreations (Reconcile env).trace = [getGroupName vg.Namespace vg.Name] ∧
      cloneCount (Reconcile env).trace = vg.Spec.Replicas.toNat ∧
      statusWrites (Reconcile env).trace =
        [{ Phase := RunningStatusPhase, CurrentReplicas := some vg.Spec.Replicas,
           DesiredReplicas := vg.Spec.Replicas, LastMessage := successMessage }] ∧
      (Reconcile env).exit =
        some ({ RequeueAfter := 0 }, wrap env.statusUpdate "could not update status") := by
  obtain ⟨pre, hp, hs, -, -, hgc⟩ := reconcile_live h
  obtain ⟨p1, -, -, -, p5⟩ := setup_queries hs
  obtain ⟨hsp, hn, hns⟩ := withGuard_spec vg
  obtain ⟨c1, -, -, -, c5⟩ := cloneOps_queries env (withGuard vg) vg.Spec.Replicas.toNat
  have c6 := cloneOps_no_group_creation env (withGuard vg) vg.Spec.Replicas.toNat
  rw [← cloneErrs_withGuard] at hclones
  have hrun : Reconcile env = statusExit env (withGuard vg)
      (pre ++ [Op.getVMGroup (getGroupName vg.Namespace vg.Name),
          Op.createVMGroup (getGroupName vg.Namespace vg.Name)] ++
        [Op.getReplicas (getGroupName vg.Namespace vg.Name)] ++
        cloneOps env (withGuard vg) vg.Spec.Replicas.toNat ++ [Op.wait])
      { RequeueAfter := 0 }
      (createStatus RunningStatusPhase successMessage none (some vg.Spec.Replicas)
        vg.Spec.Replicas) := by
    rw [hp]
    unfold reconcileGroup
    simp only [hn, hns, hlook, hnfe, hcreate, if_true]
    unfold listReplicas
    simp only [hn, hns, hlist, hnfe', if_true]
    unfold createReplicas
    simp only [hsp, hclones, egWait]
  rw [hrun]
  refine ⟨?_, ?_, ?_, rfl⟩
  · simp only [statusExit, groupCreations_append, c6, hgc]
    rfl
  · simp only [statusExit, cloneCount_append, p1, c1]
    generalize vg.Spec.Replicas.toNat = n
    simp [cloneCount]
  · simp only [statusExit, statusWrites_append, p5, c5]
    rfl

theorem append_sep_left (c : Char) (l1 l2 r1 r2 : List Char) (h1 : c ∉ l1) (h2 : c ∉ l2)
    (h : l1 ++ c :: r1 = l2 ++ c :: r2) : l1 = l2 ∧ r1 = r2 := by
  induction l1 generalizing l2 with
  | nil =>
    cases l2 with
    | nil => simpa using h
    | cons b l2 =>
      simp only [List.nil_append, List.cons_append, List.cons.injEq] at h
      exact absurd (h.1 ▸ List.mem_cons_self _ _) h2
  | cons a l1 ih =>
    cases l2 with
    | nil =>
      simp only [List.nil_append, List.cons_append, List.cons.injEq] at h
      exact absurd (h.1 ▸ List.mem_cons_self _ _) h1
    | cons b l2 =>
      simp only [List.cons_append, List.cons.injEq] at h
      obtain ⟨hab, ht⟩ := h
      obtain ⟨e1, e2⟩ := ih l2 (fun hm => h1 (List.mem_cons_of_mem _ hm))
        (fun hm => h2 (List.mem_cons_of_mem _ hm)) ht
      exact ⟨by rw [hab, e1], e2⟩

theorem append_sep_right (c : Char) (l1 l2 r1 r2 : List Char) (h1 : c ∉ r1) (h2 : c ∉ r2)
    (h : l1 ++ c :: r1 = l2 ++ c :: r2) : l1 = l2 ∧ r1 = r2 := by
  have hr : r1.reverse ++ c :: l1.reverse = r2.reverse ++ c :: l2.reverse := by
    have := congrArg List.reverse h
    simpa using this
  obtain ⟨e1, e2⟩ := append_sep_left c r1.reverse r2.reverse l1.reverse l2.reverse
    (by simpa using h1) (by simpa using h2) hr
  exact ⟨List.reverse_injective e2, List.reverse_injective e1⟩

theorem getGroupName_data (ns name : String) :
    (getGroupName ns name).data = ns.data ++ '-' :: name.data := by
  simp [getGroupName, String.data_append]

theorem settled_setup (pre t : List Op) (p : Bool) (h : ∀ op ∈ pre, op.isSetup = true) :
    settled p (pre ++ t) = settled p t := by
  induction pre with
  | nil => rfl
  | cons op pre ih =>
    have h1 := h op (List.mem_cons_self _ _)
    have ih' := ih fun o ho => h o (List.mem_cons_of_mem _ ho)
    cases op <;> simp_all [Op.isSetup, settled, Op.isGo]

theorem settled_wait_status (mid : List Op) (st : VmGroupStatus) (p : Bool)
    (h : ∀ op ∈ mid, op.isQuiet = true) :
    settled p (mid ++ [Op.wait, Op.statusUpdate st]) = true := by
  induction mid generalizing p with
  | nil => simp [settled]
  | cons op mid ih =>
    have h1 := h op (List.mem_cons_self _ _)
    have ih' := fun q => ih q fun o ho => h o (List.mem_cons_of_mem _ ho)
    cases op <;> first
      | (simp only [List.cons_append, settled]; exact ih' _)
      | (simp [Op.isQuiet] at h1)

theorem settled_status (mid : List Op) (st : VmGroupStatus)
    (h : ∀ op ∈ mid, op.isQuiet = true ∧ op.isGo = false) :
    settled false (mid ++ [Op.statusUpdate st]) = true := by
  induction mid with
  | nil => simp [settled]
  | cons op mid ih =>
    have h1 := h op (List.mem_cons_self _ _)
    have ih' := ih fun o ho => h o (List.mem_cons_of_mem _ ho)
    cases op <;> simp_all [Op.isQuiet, Op.isGo, settled]

theorem cloneOps_quiet (env : Env) (vg : VmGroup) (n : Nat) :
    ∀ op ∈ cloneOps env vg n, op.isQuiet = true := by
  intro op hop
  simp only [cloneOps, List.mem_map] at hop
  obtain ⟨i, -, rfl⟩ := hop
  rfl

theorem goDelete_quiet (l : List (Nat × VM)) :
    ∀ op ∈ l.map (fun p => Op.goDeleteVM p.2), op.isQuiet = true := by
  intro op hop
  simp only [List.mem_map] at hop
  obtain ⟨i, -, rfl⟩ := hop
  rfl

theorem powerLoop_ops (env : Env) (vms : List VM) (i : Nat) :
    ∀ op ∈ (powerLoop env i vms).1,
      (∃ vm, op = Op.isPoweredOn vm) ∨ (∃ vm, op = Op.goPowerOn vm) := by
  induction vms generalizing i with
  | nil => simp [powerLoop]
  | cons vm vms ih =>
    have ih' := ih (i + 1)
    unfold powerLoop
    cases isPoweredOn (env.vm i) with
    | error e =>
      intro op hop
      simp only [List.mem_singleton] at hop
      exact Or.inl ⟨vm, hop⟩
    | ok b =>
      cases b
      · intro op hop
        simp only [Bool.false_eq_true, if_false, List.mem_cons] at hop
        rcases hop with hop | hop | hop
        · exact Or.inl ⟨vm, hop⟩
        · exact Or.inr ⟨vm, hop⟩
        · exact ih' op hop
      · intro op hop
        simp only [if_true, List.mem_cons] at hop
        rcases hop with hop | hop
        · exact Or.inl ⟨vm, hop⟩
        · exact ih' op hop

theorem powerLoop_quiet (env : Env) (vms : List VM) :
    ∀ op ∈ (powerLoop env 0 vms).1, op.isQuiet = true := by
  intro op hop
  rcases powerLoop_ops env vms 0 op hop with ⟨vm, rfl⟩ | ⟨vm, rfl⟩ <;> rfl

theorem powerLoop_no_go (env : Env) (vms : List VM)
    (h : powerOnTargets (powerLoop env 0 vms).1 = []) :
    ∀ op ∈ (powerLoop env 0 vms).1, op.isQuiet = true ∧ op.isGo = false := by
  intro op hop
  rcases powerLoop_ops env vms 0 op hop with ⟨vm, rfl⟩ | ⟨vm, rfl⟩
  · exact ⟨rfl, rfl⟩
  · exfalso
    have hm : vm ∈ powerOnTargets (powerLoop env 0 vms).1 := by
      unfold powerOnTargets
      rw [List.mem_filterMap]
      exact ⟨_, hop, rfl⟩
    rw [h] at hm
    cases hm

theorem createReplicas_trace (env : Env) (vg : VmGroup) (pre : List Op) :
    (createReplicas env vg pre).trace =
      pre ++ cloneOps env vg vg.Spec.Replicas.toNat ++
        [Op.wait, Op.statusUpdate (createReplicas env vg pre).vg.Status] := by
  unfold createReplicas
  dsimp only
  split
  · split <;> simp [statusExit]
  · simp [statusExit]

theorem setup_snoc {pre : List Op} (op : Op) (hs : ∀ o ∈ pre, o.isSetup = true)
    (h : op.isSetup = true) : ∀ o ∈ pre ++ [op], o.isSetup = true := by
  intro o ho
  simp only [List.mem_append, List.mem_singleton] at ho
  rcases ho with ho | rfl
  · exact hs o ho
  · exact h

theorem statusExit_settled (env : Env) (vg : VmGroup) (ops : List Op) (res : Result)
    (st : VmGroupStatus) (hs : ∀ op ∈ ops, op.isSetup = true) :
    settled false (statusExit env vg ops res st).trace = true := by
  simp only [statusExit]
  rw [settled_setup _ _ _ hs]
  rfl

theorem createReplicas_settled (env : Env) (vg : VmGroup) (pre : List Op)
    (hs : ∀ op ∈ pre, op.isSetup = true) :
    settled false (createReplicas env vg pre).trace = true := by
  rw [createReplicas_trace, List.append_assoc, settled_setup _ _ _ hs]
  exact settled_wait_status _ _ _ (cloneOps_quiet env vg _)

theorem scaleUp_settled (env : Env) (vg : VmGroup) (current : Int) (pre : List Op)
    (hs : ∀ op ∈ pre, op.isSetup = true) :
    settled false (scaleUp env vg current pre).trace = true := by
  rw [(scaleUp_trace env vg current pre).1, List.append_assoc, settled_setup _ _ _ hs]
  exact settled_wait_status _ _ _ (cloneOps_quiet env vg _)

theorem scaleDown_settled (env : Env) (vg : VmGroup) (vms : List VM) (current : Int)
    (pre : List Op) (hs : ∀ op ∈ pre, op.isSetup = true)
    (hret : (scaleDown env vg vms current pre).exit ≠ none) :
    settled false (scaleDown env vg vms current pre).trace = true := by
  rw [scaleDown_trace env vg vms current pre hret, List.append_assoc,
    settled_setup _ _ _ hs]
  exact settled_wait_status _ _ _ (goDelete_quiet _)

theorem checkPower_settled (env : Env) (vg : VmGroup) (vms : List VM) (current : Int)
    (pre : List Op) (hs : ∀ op ∈ pre, op.isSetup = true)
    (hq : (powerLoop env 0 vms).2.2 ≠ none → powerOnTargets (powerLoop env 0 vms).1 = []) :
    settled false (checkPower env vg vms current pre).trace = true := by
  obtain ⟨tl, ht, -, htl⟩ := checkPower_trace env vg vms current pre
  rcases htl with ⟨rfl, hne⟩ | ⟨rfl, -⟩
  · rw [ht, List.append_assoc, settled_setup _ _ _ hs]
    exact settled_status _ _ (powerLoop_no_go env vms (hq hne))
  · rw [ht, List.append_assoc, settled_setup _ _ _ hs]
    exact settled_wait_status _ _ _ (powerLoop_quiet env vms)

theorem checkDiffs_settled (env : Env) (vg : VmGroup) (vms : List VM) (pre : List Op)
    (hs : ∀ op ∈ pre, op.isSetup = true)
    (hret : (checkDiffs env vg vms pre).exit ≠ none)
    (hq : int32 vms.length = vg.Spec.Replicas → (powerLoop env 0 vms).2.2 ≠ none →
      powerOnTargets (powerLoop env 0 vms).1 = []) :
    settled false (checkDiffs env vg vms pre).trace = true := by
  by_cases hlt : int32 vms.length < vg.Spec.Replicas
  · have hsw : checkDiffs env vg vms pre = scaleUp env vg (int32 vms.length) pre := by
      unfold checkDiffs
      dsimp only
      rw [if_pos hlt]
    rw [hsw]
    exact scaleUp_settled env vg _ pre hs
  · by_cases hgt : int32 vms.length > vg.Spec.Replicas
    · have hsw : checkDiffs env vg vms pre = scaleDown env vg vms (int32 vms.length) pre := by
        unfold checkDiffs
        dsimp only
        rw [if_neg hlt, if_pos hgt]
      rw [hsw] at hret ⊢
      exact scaleDown_settled env vg vms _ pre hs hret
    · have hsw : checkDiffs env vg vms pre = checkPower env vg vms (int32 vms.length) pre := by
        unfold checkDiffs
        dsimp only
        rw [if_neg hlt, if_neg hgt]
      rw [hsw]
      exact checkPower_settled env vg vms _ pre hs (hq (by omega))

theorem listReplicas_settled (env : Env) (vg : VmGroup) (pre : List Op)
    (hs : ∀ op ∈ pre, op.isSetup = true)
    (hret : (listReplicas env vg pre).exit ≠ none)
    (hq : ∀ vms, getReplicas env (getGroupName vg.Namespace vg.Name) = .ok vms →
      int32 vms.length = vg.Spec.Replicas → (powerLoop env 0 vms).2.2 ≠ none →
      powerOnTargets (powerLoop env 0 vms).1 = []) :
    settled false (listReplicas env vg pre).trace = true := by
  have hs' := setup_snoc (Op.getReplicas (getGroupName vg.Namespace vg.Name)) hs rfl
  cases hl : getReplicas env (getGroupName vg.Namespace vg.Name) with
  | error err =>
    by_cases hn : err.isNfe = true
    · have hsw : listReplicas env vg pre = createReplicas env vg
          (pre ++ [Op.getReplicas (getGroupName vg.Namespace vg.Name)]) := by
        unfold listReplicas
        simp only [hl, hn, if_true]
      rw [hsw]
      exact createReplicas_settled env vg _ hs'
    · have hsw : listReplicas env vg pre = statusExit env vg
          (pre ++ [Op.getReplicas (getGroupName vg.Namespace vg.Name)]) { RequeueAfter := 0 }
          (createStatus ErrorStatusPhase "could not get replicas for VmGroup from vCenter"
            (some err) none vg.Spec.Replicas) := by
        unfold listReplicas
        simp only [hl, hn, Bool.false_eq_true, if_false]
      rw [hsw]
      exact statusExit_settled env vg _ _ _ hs'
  | ok vms =>
    have hsw : listReplicas env vg pre = checkDiffs env vg vms
        (pre ++ [Op.getReplicas (getGroupName vg.Namespace vg.Name)]) := by
      unfold listReplicas
      simp only [hl]
    rw [hsw] at hret ⊢
    exact checkDiffs_settled env vg vms _ hs' hret (hq vms hl)

theorem reconcileGroup_settled (env : Env) (vg : VmGroup) (pre : List Op)
    (hs : ∀ op ∈ pre, op.isSetup = true)
    (hret : (reconcileGroup env vg pre).exit ≠ none)
    (hq : ∀ vms, getReplicas env (getGroupName vg.Namespace vg.Name) = .ok vms →
      int32 vms.length = vg.Spec.Replicas → (powerLoop env 0 vms).2.2 ≠ none →
      powerOnTargets (powerLoop env 0 vms).1 = []) :
    settled false (reconcileGroup env vg pre).trace = true := by
  have hs1 := setup_snoc (Op.getVMGroup (getGroupName vg.Namespace vg.Name)) hs rfl
  have hs2 := setup_snoc (Op.createVMGroup (getGroupName vg.Namespace vg.Name)) hs1 rfl
  rw [List.append_assoc] at hs2
  cases hg : getVMGroup env (getGroupName vg.Namespace vg.Name) with
  | error err =>
    by_cases hn : err.isNfe = true
    · cases hc : createVMGroup env (getGroupName vg.Namespace vg.Name) with
      | error err' =>
        have hsw : reconcileGroup env vg pre = statusExit env vg
            (pre ++ [Op.getVMGroup (getGroupName vg.Namespace vg.Name),
              Op.createVMGroup (getGroupName vg.Namespace vg.Name)]) { RequeueAfter := 0 }
            (createStatus ErrorStatusPhase "could not create VmGroup in vCenter" (some err')
              none vg.Spec.Replicas) := by
          unfold reconcileGroup
          simp only [hg, hn, hc, if_true]
        rw [hsw]
        exact statusExit_settled env vg _ _ _ hs2
      | ok f =>
        have hsw : reconcileGroup env vg pre = listReplicas env vg
            (pre ++ [Op.getVMGroup (getGroupName vg.Namespace vg.Name),
              Op.createVMGroup (getGroupName vg.Namespace vg.Name)]) := by
          unfold reconcileGroup
          simp only [hg, hn, hc, if_true]
        rw [hsw] at hret ⊢
        exact listReplicas_settled env vg _ hs2 hret hq
    · have hsw : reconcileGroup env vg pre = statusExit env vg
          (pre ++ [Op.getVMGroup (getGroupName vg.Namespace vg.Name)]) { RequeueAfter := 0 }
          (createStatus ErrorStatusPhase "could not get VmGroup from vCenter" (some err)
            none vg.Spec.Replicas) := by
        unfold reconcileGroup
        simp only [hg, hn, Bool.false_eq_true, if_false]
      rw [hsw]
      exact statusExit_settled env vg _ _ _ hs1
  | ok f =>
    have hsw : reconcileGroup env vg pre = listReplicas env vg
        (pre ++ [Op.getVMGroup (getGroupName vg.Namespace vg.Name)]) := by
      unfold reconcileGroup
      simp only [hg]
    rw [hsw] at hret ⊢
    exact listReplicas_settled env vg _ hs1 hret hq

/-- What the code does on the other exits: on a pass over a loaded resource that is not
marked for deletion, with the guard present or persisted, that returns, and whose power
check does not stop on a failed query after having started a power-on, every task handed to
the errgroup is followed by the return of `eg.Wait` before the status write. -/
theorem reconcile_waits_before_status (env : Env) (vg : VmGroup) (h : Live env vg)
    (hret : (Reconcile env).exit ≠ none)
    (hq : ∀ vms, getReplicas env (getGroupName vg.Namespace vg.Name) = .ok vms →
      int32 vms.length = vg.Spec.Replicas → (powerLoop env 0 vms).2.2 ≠ none →
      powerOnTargets (powerLoop env 0 vms).1 = []) :
    settled false (Reconcile env).trace = true := by
  obtain ⟨pre, hp, hs, -, -⟩ := reconcile_live h
  obtain ⟨hsp, hn, hns⟩ := withGuard_spec vg
  rw [hp] at hret ⊢
  exact reconcileGroup_settled env (withGuard vg) pre hs hret (by rw [hn, hns, hsp]; exact hq)

theorem after_deleteFolder (t : List Op) (f : Folder) (inv : Inventory) :
    (inv.after (t ++ [Op.deleteFolder f])).present = false := by
  induction t generalizing inv with
  | nil => rfl
  | cons op t ih =>
    cases op <;> simp only [List.cons_append, Inventory.after] <;> exact ih _

theorem deleteTasks_succeed (env : Env) (vms : List VM) (i : Nat)
    (h1 : ∀ i, ∃ w, (env.vm i).powerOff = .started w)
    (h2 : ∀ i, (env.vm i).destroy = .started none) :
    (deleteTasks env i vms).contains Exit.crashed = false ∧
      failures (deleteTasks env i vms) = [] := by
  induction vms generalizing i with
  | nil => exact ⟨rfl, rfl⟩
  | cons vm vms ih =>
    obtain ⟨w, hw⟩ := h1 i
    obtain ⟨i1, i2⟩ := ih (i + 1)
    have hd : (deleteVM (env.vm i) vm).2 = Exit.returned none := by
      simp [deleteVM, hw, h2 i]
    simp only [deleteTasks, hd, List.contains_cons, i1, failures, i2]
    exact ⟨rfl, trivial⟩

theorem teardown_group_absent (env : Env) (vg : VmGroup) (e : Err)
    (h : getVMGroup env (getGroupName vg.Namespace vg.Name) = .error e)
    (hn : e.isNfe = true) :
    deleteExternalResources env vg =
      ([Op.getVMGroup (getGroupName vg.Namespace vg.Name)], Exit.returned none) := by
  unfold deleteExternalResources
  simp only [h, hn, if_true]

theorem teardown_listing_absent (env : Env) (vg : VmGroup) (f : Folder) (e : Err)
    (h : getVMGroup env (getGroupName vg.Namespace vg.Name) = .ok f)
    (hl : getReplicas env (getGroupName vg.Namespace vg.Name) = .error e)
    (hn : e.isNfe = true) :
    deleteExternalResources env vg =
      ([Op.getVMGroup (getGroupName vg.Namespace vg.Name),
        Op.getReplicas (getGroupName vg.Namespace vg.Name), Op.deleteFolder f],
       Exit.returned (wrap (deleteFolder env.destroyFolder f) "could not delete VmGroup")) := by
  unfold deleteExternalResources
  simp only [h, hl, hn, if_true]

theorem teardown_served_absent (env : Env) (vg : VmGroup) (inv : Inventory)
    (hs : Serves env inv) (hp : inv.present = false) :
    deleteExternalResources env vg =
      ([Op.getVMGroup (getGroupName vg.Namespace vg.Name)], Exit.returned none) := by
  obtain ⟨e, he, hn⟩ := hs.absent hp
  exact teardown_group_absent env vg
    (e.wrap ("could not retrieve vm group " ++ quote (getGroupName vg.Namespace vg.Name)))
    (by simp only [getVMGroup, he]) hn

theorem teardown_served (env : Env) (vg : VmGroup) (inv : Inventory) (hs : Serves env inv) :
    (deleteExternalResources env vg).2 = Exit.returned none ∧
      (inv.after (deleteExternalResources env vg).1).present = false := by
  cases hp : inv.present with
  | false =>
    rw [teardown_served_absent env vg inv hs hp]
    exact ⟨rfl, hp⟩
  | true =>
    obtain ⟨⟨f, hf⟩, ⟨f', hf'⟩⟩ := hs.found hp
    have hg : getVMGroup env (getGroupName vg.Namespace vg.Name) = .ok f := by
      simp only [getVMGroup, hf]
    have habsent : ∀ e, getReplicas env (getGroupName vg.Namespace vg.Name) = .error e →
        e.isNfe = true →
        (deleteExternalResources env vg).2 = Exit.returned none ∧
          (inv.after (deleteExternalResources env vg).1).present = false := by
      intro e he hn
      rw [teardown_listing_absent env vg f e hg he hn, hs.destroyFolder]
      exact ⟨rfl, rfl⟩
    rcases hs.listing with hl | ⟨-, e, he, hn⟩
    · cases hv : inv.vms with
      | nil =>
        rw [hv] at hl
        obtain ⟨e, he, hn⟩ := getReplicas_empty env (getGroupName vg.Namespace vg.Name) f' hf' hl
        exact habsent e he hn
      | cons vm vms =>
        rw [hv] at hl
        have hr := getReplicas_cons env (getGroupName vg.Namespace vg.Name) f' vm vms hf' hl
        obtain ⟨d1, d2⟩ := deleteTasks_succeed env (vm :: vms) 0 hs.powerOff hs.destroy
        have hrun : deleteExternalResources env vg =
            ([Op.getVMGroup (getGroupName vg.Namespace vg.Name),
                Op.getReplicas (getGroupName vg.Namespace vg.Name)] ++
              (vm :: vms).map Op.goDeleteVM ++ [Op.wait, Op.deleteFolder f],
             Exit.returned
              (wrap (deleteFolder env.destroyFolder f) "could not delete VmGroup")) := by
          unfold deleteExternalResources
          simp only [hg, hr, d1, d2, egWait, Bool.false_eq_true, if_false]
        rw [hrun, hs.destroyFolder]
        refine ⟨rfl, ?_⟩
        have := after_deleteFolder
          ([Op.getVMGroup (getGroupName vg.Namespace vg.Name),
              Op.getReplicas (getGroupName vg.Namespace vg.Name)] ++
            (vm :: vms).map Op.goDeleteVM ++ [Op.wait]) f inv
        simpa using this
    · exact habsent e (getReplicas_error env _ f' e hf' he) hn

/-! ## C1: the status after a scale-down -/

/-- C1, the code at desired = 2 with four listed replicas, every call succeeding: the pass
deletes the first two and writes only the status RUNNING with currentReplicas = 4, the count
listed before the deletes, and desiredReplicas = 2. -/
theorem reconcile_scale_down_writes_listed_count :
    (Reconcile fourListedEnv).trace =
      [Op.get, Op.getVMGroup "default-web", Op.getReplicas "default-web",
        Op.goDeleteVM (sampleVm 0), Op.goDeleteVM (sampleVm 1), Op.wait,
        Op.statusUpdate { Phase := "RUNNING", CurrentReplicas := some 4, DesiredReplicas := 2,
                          LastMessage := "successfully reconciled VmGroup" }] ∧
    (Reconcile fourListedEnv).exit =
      some ({ RequeueAfter := 0 }, none) := by
  decide

/-! ## C2: the first pass, on a group that does not exist yet -/

/-- C2: for every desired count from 1 up, on a pass over a loaded resource that is not
marked for deletion (guard present or persisted) where the group lookup reports not-found,
the group creation succeeds, the backend answers the listing of the new group with a
not-found signal or with an empty list, and every clone succeeds, there is exactly one group
creation, exactly `desired` clones are handed to the errgroup, and the one status written is
RUNNING with currentReplicas = desired and desiredReplicas = desired, with no requeue. -/
theorem reconcile_fresh_group (env : Env) (vg : VmGroup) (e : Err) (f f' : Folder)
    (h : Live env vg) (hd : 1 ≤ vg.Spec.Replicas)
    (hlook : getVMGroup env (getGroupName vg.Namespace vg.Name) = .error e)
    (hnfe : e.isNfe = true)
    (hcreate : createVMGroup env (getGroupName vg.Namespace vg.Name) = .ok f)
    (hfolder : env.listFolder = .ok f')
    (hlist : env.vmList = .ok [] ∨ ∃ e', env.vmList = .error e' ∧ e'.isNfe = true)
    (hclones : ∀ i, i < vg.Spec.Replicas.toNat →
      cloneVM (env.clone i) (vg.Name ++ "-replica-" ++ generateName env.rand i) = none) :
    groupCreations (Reconcile env).trace = [getGroupName vg.Namespace vg.Name] ∧
    (cloneCount (Reconcile env).trace : Int) = vg.Spec.Replicas ∧
    statusWrites (Reconcile env).trace =
      [{ Phase := RunningStatusPhase, CurrentReplicas := some vg.Spec.Replicas,
         DesiredReplicas := vg.Spec.Replicas, LastMessage := successMessage }] ∧
    (Reconcile env).exit =
      some ({ RequeueAfter := 0 }, wrap env.statusUpdate "could not update status") := by
  have herrs : cloneErrs env vg vg.Spec.Replicas.toNat = [] := by
    unfold cloneErrs
    rw [List.filterMap_eq_nil_iff]
    intro i hi
    exact hclones i (List.mem_range.mp hi)
  have hrep : ∃ e', getReplicas env (getGroupName vg.Namespace vg.Name) = .error e' ∧
      e'.isNfe = true := by
    rcases hlist with hv | ⟨e', hv, hn⟩
    · exact getReplicas_empty env _ f' hfolder hv
    · exact ⟨e', getReplicas_error env _ f' e' hfolder hv, hn⟩
  obtain ⟨e', hl, hn'⟩ := hrep
  obtain ⟨h1, h2, h3, h4⟩ :=
    reconcile_fresh_group_not_found_listing env vg e e' f h hlook hnfe hcreate hl hn' herrs
  refine ⟨h1, ?_, h3, h4⟩
  rw [h2]
  exact Int.toNat_of_nonneg (by omega)

/-- C2 at desired = 3 when the backend answers the listing of the new group with an empty
list: one group creation, three clones, the status RUNNING with currentReplicas = 3. -/
theorem reconcile_fresh_group_witness :
    groupCreations (Reconcile (freshEnv (sampleGroup 3) (.ok []))).trace = ["default-web"] ∧
    (cloneCount (Reconcile (freshEnv (sampleGroup 3) (.ok []))).trace : Int) = 3 ∧
    statusWrites (Reconcile (freshEnv (sampleGroup 3) (.ok []))).trace =
      [{ Phase := "RUNNING", CurrentReplicas := some 3, DesiredReplicas := 3,
         LastMessage := "successfully reconciled VmGroup" }] ∧
    (Reconcile (freshEnv (sampleGroup 3) (.ok []))).exit =
      some ({ RequeueAfter := 0 }, none) :=
  reconcile_fresh_group (freshEnv (sampleGroup 3) (.ok [])) (sampleGroup 3)
    (notFoundErr.wrap "could not retrieve vm group \"default-web\"") sampleFolder sampleFolder
    ⟨rfl, rfl, Or.inl rfl⟩ (by decide) rfl rfl rfl rfl (Or.inl rfl) (fun _ _ => rfl)

/-! ## C3: the action set of a pass that gets a listing -/

/-- C3, as stated, fails when the listing is in sync: with desired = 1 and one listed
replica that is powered off, the pass schedules no clone and no delete, and the listed
replica, which is no delete target, receives a power-state query and a power-on; the pass
returns. -/
theorem reconcile_in_sync_powers_on_listed_replica :
    Listed oneOffEnv
      (sampleGroup 1) [sampleVm 0] ∧
    cloneCount (Reconcile oneOffEnv).trace = 0 ∧
    deleteTargets (Reconcile oneOffEnv).trace = [] ∧
    powerOnTargets (Reconcile oneOffEnv).trace
      = [sampleVm 0] ∧
    (Reconcile oneOffEnv).exit = some ({ RequeueAfter := 0 }, none) := by
  refine ⟨⟨⟨rfl, rfl, Or.inl rfl⟩, Or.inl ⟨sampleFolder, rfl⟩, rfl⟩, ?_, ?_, ?_, ?_⟩ <;> decide

/-- C3, amended: for every listing `vms` and every desired count from 1 up (an int32, the
listing shorter than 2^31), a pass that gets the listing and returns hands
`max(desired - current, 0)` clones and `max(current - desired, 0)` deletes to the errgroup,
never both; the deletes go to the first `current - desired` entries of the listing, in
listing order, so no other listed replica is deleted; and when `current ≠ desired` no power
state is queried and no power-on is started. A pass that a delete task brings down before
it returns is left out. -/
theorem reconcile_action_set (env : Env) (vg : VmGroup) (vms : List VM)
    (h : Listed env vg vms) (hd : 1 ≤ vg.Spec.Replicas) (hd32 : vg.Spec.Replicas < 2147483648)
    (hl : vms.length < 2147483648) (hret : (Reconcile env).exit ≠ none) :
    cloneCount (Reconcile env).trace = (vg.Spec.Replicas - vms.length).toNat ∧
    deleteTargets (Reconcile env).trace = vms.take ((vms.length : Int) - vg.Spec.Replicas).toNat ∧
    (cloneCount (Reconcile env).trace = 0 ∨ deleteTargets (Reconcile env).trace = []) ∧
    ((vms.length : Int) ≠ vg.Spec.Replicas →
      powerQueries (Reconcile env).trace = [] ∧ powerOnTargets (Reconcile env).trace = []) := by
  obtain ⟨pre, hp, hs⟩ := reconcile_listed h
  obtain ⟨p1, p2, p3, p4, -⟩ := setup_queries hs
  obtain ⟨hsp, -, -⟩ := withGuard_spec vg
  have hcur : int32 (vms.length : Int) = vms.length := int32_of_range (by omega) (by omega)
  rw [hp] at hret ⊢
  unfold checkDiffs at hret ⊢
  simp only [hcur, hsp] at hret ⊢
  by_cases hlt : (vms.length : Int) < vg.Spec.Replicas
  · rw [if_pos hlt]
    obtain ⟨ht, -⟩ := scaleUp_trace env (withGuard vg) vms.length pre
    obtain ⟨c1, c2, c3, c4, -⟩ := cloneOps_queries env (withGuard vg)
      (int32 ((withGuard vg).Spec.Replicas - vms.length)).toNat
    have hdiff : int32 (vg.Spec.Replicas - vms.length) = vg.Spec.Replicas - vms.length :=
      int32_of_range (by omega) (by omega)
    rw [hsp, hdiff] at c1 c2 c3 c4 ht
    have e1 : ((vms.length : Int) - vg.Spec.Replicas).toNat = 0 := by omega
    rw [ht, e1]
    generalize (vg.Spec.Replicas - (vms.length : Int)).toNat = n at c1 c2 c3 c4
    simp [cloneCount_append, deleteTargets_append, powerQueries_append,
      powerOnTargets_append, p1, p2, p3, p4, c1, c2, c3, c4]
    simp [cloneCount, deleteTargets, powerQueries, powerOnTargets]
  · rw [if_neg hlt]
    by_cases hgt : (vms.length : Int) > vg.Spec.Replicas
    · rw [if_neg hlt, if_pos hgt] at hret
      rw [if_pos hgt]
      have ht := scaleDown_trace env (withGuard vg) vms vms.length pre hret
      obtain ⟨d1, d2, d3, d4, -⟩ := goDelete_queries
        (scaleDownLoop vms 0 (int32 (vms.length - (withGuard vg).Spec.Replicas)).toNat).1
      rw [scaleDownLoop_targets] at d2
      have hdiff : int32 (vms.length - vg.Spec.Replicas) = vms.length - vg.Spec.Replicas :=
        int32_of_range (by omega) (by omega)
      rw [hsp, hdiff] at d1 d2 d3 d4 ht
      have e1 : (vg.Spec.Replicas - (vms.length : Int)).toNat = 0 := by omega
      rw [ht, e1]
      generalize ((vms.length : Int) - vg.Spec.Replicas).toNat = n at d1 d2 d3 d4
      simp [cloneCount_append, deleteTargets_append, powerQueries_append,
        powerOnTargets_append, p1, p2, p3, p4, d1, d2, d3, d4]
      simp [cloneCount, deleteTargets, powerQueries, powerOnTargets]
    · rw [if_neg hgt]
      have heq : (vms.length : Int) = vg.Spec.Replicas := by omega
      obtain ⟨tl, ht, -, htl⟩ := checkPower_trace env (withGuard vg) vms vms.length pre
      obtain ⟨q1, q2, -⟩ := powerLoop_queries env vms 0
      have htl' : cloneCount tl = 0 ∧ deleteTargets tl = [] := by
        rcases htl with ⟨rfl, -⟩ | ⟨rfl, -⟩ <;> simp [cloneCount, deleteTargets]
      obtain ⟨t1, t2⟩ := htl'
      rw [ht]
      simp [cloneCount_append, deleteTargets_append, p1, p2, q1, q2, t1, t2, heq]

/-- C3, amended, at desired = 2 with four listed replicas: no clone, and the deletes go to
the first two entries of the listing. -/
theorem reconcile_action_set_witness :
    cloneCount (Reconcile fourListedEnv).trace = 0 ∧
    deleteTargets (Reconcile fourListedEnv).trace = [sampleVm 0, sampleVm 1] :=
  have h := reconcile_action_set fourListedEnv (sampleGroup 2)
    [sampleVm 0, sampleVm 1, sampleVm 2, sampleVm 3]
    ⟨⟨rfl, rfl, Or.inl rfl⟩, Or.inl ⟨sampleFolder, rfl⟩, rfl⟩ (by decide) (by decide) (by decide)
    (by decide)
  ⟨h.1, h.2.1⟩

/-! ## C4: the listing is in sync with the desired count -/

/-- C4: when the listing has `desired` entries and every power-state query succeeds, the
pass queries each listed replica, starts one power-on for each replica whose state is not
"on" and for no other, and hands no clone and no delete to the errgroup; when these
power-ons all succeed it writes exactly the status RUNNING with currentReplicas = desired. -/
theorem reconcile_in_sync_power_check (env : Env) (vg : VmGroup) (vms : List VM)
    (h : Listed env vg vms) (hlen : (vms.length : Int) = vg.Spec.Replicas)
    (hl : vms.length < 2147483648)
    (hq : ∀ i, i < vms.length → ∃ p, (env.vm i).powerState = .ok p) :
    powerQueries (Reconcile env).trace = vms ∧
    powerOnTargets (Reconcile env).trace = notPoweredOn env 0 vms ∧
    cloneCount (Reconcile env).trace = 0 ∧
    deleteTargets (Reconcile env).trace = [] ∧
    ((∀ i, i < vms.length → needsPowerOn (env.vm i) = true → powerOnTask (env.vm i) = none) →
      statusWrites (Reconcile env).trace =
        [{ Phase := RunningStatusPhase, CurrentReplicas := some vg.Spec.Replicas,
           DesiredReplicas := vg.Spec.Replicas, LastMessage := successMessage }] ∧
      (Reconcile env).exit =
        some ({ RequeueAfter := 0 }, wrap env.statusUpdate "could not update status")) := by
  obtain ⟨pre, hp, hs⟩ := reconcile_listed h
  obtain ⟨p1, p2, p3, p4, p5⟩ := setup_queries hs
  obtain ⟨hsp, -, -⟩ := withGuard_spec vg
  have hcur : int32 (vms.length : Int) = vms.length := int32_of_range (by omega) (by omega)
  have hq0 : ∀ j, j < vms.length → ∃ p, (env.vm (0 + j)).powerState = .ok p := by
    simpa using hq
  obtain ⟨l1, l2, l3⟩ := powerLoop_all_queried env vms 0 hq0
  obtain ⟨q1, q2, q3⟩ := powerLoop_queries env vms 0
  have hsw : checkDiffs env (withGuard vg) vms pre =
      checkPower env (withGuard vg) vms vms.length pre := by
    unfold checkDiffs
    simp only [hcur, hsp]
    rw [if_neg (by omega), if_neg (by omega)]
  obtain ⟨tl, ht, -, htl⟩ := checkPower_trace env (withGuard vg) vms vms.length pre
  have htl' : tl = [Op.wait, Op.statusUpdate
      (checkPower env (withGuard vg) vms vms.length pre).vg.Status] := by
    rcases htl with ⟨-, hne⟩ | ⟨rfl, -⟩
    · exact absurd l1 hne
    · rfl
  rw [hp, hsw]
  refine ⟨?_, ?_, ?_, ?_, ?_⟩
  · rw [ht, htl']
    simp [powerQueries_append, p4, l2]
    simp [powerQueries]
  · rw [ht, htl']
    simp [powerOnTargets_append, p3, l3]
    simp [powerOnTargets]
  · rw [ht, htl']
    simp [cloneCount_append, p1, q1]
    simp [cloneCount]
  · rw [ht, htl']
    simp [deleteTargets_append, p2, q2]
    simp [deleteTargets]
  · intro hon
    have hon0 : ∀ j, j < vms.length → needsPowerOn (env.vm (0 + j)) = true →
        powerOnTask (env.vm (0 + j)) = none := by
      simpa using hon
    rw [checkPower_running env (withGuard vg) vms vms.length pre l1
      (powerLoop_no_failure env vms 0 hon0)]
    simp [running, statusExit, statusWrites_append, p5, q3, hsp, hlen, createStatus]
    simp [statusWrites]

/-- C4 at desired = 2 with two listed replicas of which the second is powered off: one
power-on, for the second replica, and the status RUNNING with currentReplicas = 2. -/
theorem reconcile_in_sync_power_check_witness :
    powerOnTargets (Reconcile secondOffEnv).trace = [sampleVm 1] ∧
    statusWrites (Reconcile secondOffEnv).trace =
      [{ Phase := "RUNNING", CurrentReplicas := some 2, DesiredReplicas := 2,
         LastMessage := "successfully reconciled VmGroup" }] :=
  have h := reconcile_in_sync_power_check
    secondOffEnv
    (sampleGroup 2) [sampleVm 0, sampleVm 1]
    ⟨⟨rfl, rfl, Or.inl rfl⟩, Or.inl ⟨sampleFolder, rfl⟩, rfl⟩ (by decide) (by decide)
    (fun i _ => by
      by_cases hi : i = 1
      · exact ⟨.poweredOff, by simp [secondOffEnv, poweredOffVm, hi]⟩
      · exact ⟨.poweredOn, by simp [secondOffEnv, healthyVm, hi]⟩)
  ⟨h.2.1, (h.2.2.2.2 (fun i _ _ => by
      by_cases hi : i = 1
      · simp [secondOffEnv, poweredOffVm, healthyVm, powerOnTask, hi]
      · simp [secondOffEnv, healthyVm, powerOnTask, hi])).1⟩

/-! ## C5: the guard on the deletion path -/

/-- C5: on a pass over a resource marked for deletion that carries the guard, when teardown
succeeds the record is updated once, with the finalizer list without the guard; in every
other case there is no record update and the list is unchanged, and when teardown returns
an error the pass returns that error; no status is written either way. Removing the guard
keeps every other finalizer, in order. -/
theorem reconcile_deletion_guard (env : Env) (vg : VmGroup) (h1 : env.get = .ok vg)
    (h2 : vg.deletionIsZero = false) (h3 : containsString vg.Finalizers finalizerID = true) :
    ((deleteExternalResources env vg).2 = .returned none →
      recordUpdates (Reconcile env).trace = [removeString vg.Finalizers finalizerID] ∧
      (Reconcile env).vg.Finalizers = removeString vg.Finalizers finalizerID) ∧
    ((deleteExternalResources env vg).2 ≠ .returned none →
      recordUpdates (Reconcile env).trace = [] ∧
      (Reconcile env).vg.Finalizers = vg.Finalizers) ∧
    (∀ err, (deleteExternalResources env vg).2 = .returned (some err) →
      (Reconcile env).exit = some ({ RequeueAfter := 0 }, some err)) ∧
    statusWrites (Reconcile env).trace = [] ∧
    removeString vg.Finalizers finalizerID =
      vg.Finalizers.filter (fun item => item ≠ finalizerID) ∧
    containsString (removeString vg.Finalizers finalizerID) finalizerID = false := by
  obtain ⟨n1, n2⟩ := deleteExternalResources_no_store_call env vg
  have hrec : Reconcile env =
      match deleteExternalResources env vg with
      | (ops, .crashed) => { trace := .get :: ops, exit := none, vg := vg }
      | (ops, .returned (some err)) =>
        { trace := .get :: ops, exit := some ({ RequeueAfter := 0 }, some err), vg := vg }
      | (ops, .returned none) =>
        { trace := .get :: ops ++ [.update (removeString vg.Finalizers finalizerID)],
          exit := some ({ RequeueAfter := 0 }, wrap env.update "could not remove finalizer"),
          vg := { vg with Finalizers := removeString vg.Finalizers finalizerID } } := by
    simp [Reconcile, h1, h2, h3]
  rw [hrec]
  rcases hd : deleteExternalResources env vg with ⟨ops, ex⟩
  rw [hd] at n1 n2
  simp only at n1 n2
  refine ⟨?_, ?_, ?_, ?_, removeString_eq_filter _ _, ?_⟩
  · intro hs
    simp only at hs
    subst hs
    simp only [recordUpdates_get, recordUpdates_append, n1, recordUpdates_update,
      List.nil_append, and_self]
  · intro hs
    simp only at hs
    rcases ex with (_ | err) | _
    · exact absurd rfl hs
    · simp only [recordUpdates_get, n1, and_self]
    · simp only [recordUpdates_get, n1, and_self]
  · intro err hs
    simp only at hs
    subst hs
    rfl
  · rcases ex with (_ | err) | _
    · simp only [statusWrites_get, statusWrites_append, n2, statusWrites_update,
        List.append_nil]
    · simp only [statusWrites_get, n2]
    · simp only [statusWrites_get, n2]
  · rw [removeString_eq_filter]
    cases hc : containsString (List.filter (fun item => item ≠ finalizerID) vg.Finalizers)
      finalizerID with
    | false => rfl
    | true =>
      rw [containsString_iff] at hc
      simp at hc

/-- C5 on the sample resource marked for deletion with finalizers audit, vm-operator, backup
and a teardown that succeeds: one record update, with the finalizers audit, backup. -/
theorem reconcile_deletion_guard_witness :
    recordUpdates (Reconcile deletingEnv).trace = [["audit", "backup"]] ∧
    (Reconcile deletingEnv).vg.Finalizers = ["audit", "backup"] :=
  (reconcile_deletion_guard deletingEnv deletingGroup rfl (by decide) (by decide)).1 (by decide)

/-! ## C6: registering the guard -/

/-- C6: on a pass over a loaded resource that is not marked for deletion, when the guard is
absent the first call after loading is the record update that carries the finalizers with
the guard appended, every other call of the pass (so every backend call) comes after it,
and there is no second record update; when that update fails the pass makes no further
call, so no backend call at all, and returns the error. When the guard is present the pass
makes no record update and leaves the finalizers as they are. -/
theorem reconcile_registers_guard (env : Env) (vg : VmGroup) (h1 : env.get = .ok vg)
    (h2 : vg.deletionIsZero = true) :
    (containsString vg.Finalizers finalizerID = false →
      ∃ rest, (Reconcile env).trace =
          Op.get :: Op.update (vg.Finalizers ++ [finalizerID]) :: rest ∧
        recordUpdates rest = [] ∧
        (Reconcile env).vg.Finalizers = vg.Finalizers ++ [finalizerID] ∧
        ∀ err, env.update = some err →
          rest = [] ∧ (∀ op ∈ (Reconcile env).trace, op.isBackend = false) ∧
          (Reconcile env).exit =
            some ({ RequeueAfter := 0 }, some (err.wrap "could not add finalizer"))) ∧
    (containsString vg.Finalizers finalizerID = true →
      recordUpdates (Reconcile env).trace = [] ∧
      (Reconcile env).vg.Finalizers = vg.Finalizers) := by
  constructor
  · intro hc
    cases hu : env.update with
    | some err =>
      refine ⟨[], ?_, rfl, ?_, ?_⟩
      · simp [Reconcile, h1, h2, hc, hu]
      · simp [Reconcile, h1, h2, hc, hu]
      · intro err' he
        cases he
        refine ⟨rfl, ?_, ?_⟩
        · simp [Reconcile, h1, h2, hc, hu, Op.isBackend]
        · simp [Reconcile, h1, h2, hc, hu]
    | none =>
      have hr : Reconcile env =
          reconcileGroup env { vg with Finalizers := vg.Finalizers ++ [finalizerID] }
            [.get, .update (vg.Finalizers ++ [finalizerID])] := by
        simp [Reconcile, h1, h2, hc, hu]
      obtain ⟨rest, ht, hr1, hf, -⟩ := reconcileGroup_continues env
        { vg with Finalizers := vg.Finalizers ++ [finalizerID] }
        [.get, .update (vg.Finalizers ++ [finalizerID])]
      rw [hr]
      refine ⟨rest, ?_, hr1, hf, ?_⟩
      · rw [ht]
        rfl
      · intro err he
        cases he
  · intro hc
    have hr : Reconcile env = reconcileGroup env vg [.get] := by
      simp [Reconcile, h1, h2, hc]
    obtain ⟨rest, ht, hr1, hf, -⟩ := reconcileGroup_continues env vg [.get]
    rw [hr]
    refine ⟨?_, hf⟩
    rw [ht, recordUpdates_append, hr1]
    rfl

/-- C6 on the sample resource without guard and a store that refuses the record update:
the pass loads the resource, tries the update and returns the error. -/
theorem reconcile_registers_guard_witness :
    (Reconcile updateFailsEnv).trace = [Op.get, Op.update [finalizerID]] ∧
    (Reconcile updateFailsEnv).exit =
      some ({ RequeueAfter := 0 }, some (transientErr.wrap "could not add finalizer")) :=
  have h := (reconcile_registers_guard updateFailsEnv unguardedGroup rfl (by decide)).1
    (by decide)
  ⟨by
    obtain ⟨rest, ht, -, -, hu⟩ := h
    rw [ht, (hu transientErr rfl).1]
    rfl,
   by
    obtain ⟨rest, -, -, -, hu⟩ := h
    exact (hu transientErr rfl).2.2⟩

/-! ## C7: status writes of a pass -/

/-- C7, as stated, fails on the exit taken when registering the guard fails: the resource
is loaded and not marked for deletion, the record update is refused, and the pass returns
the error without a status write. -/
theorem reconcile_guard_failure_writes_no_status :
    updateFailsEnv.get = .ok unguardedGroup ∧
    unguardedGroup.deletionIsZero = true ∧
    statusWrites (Reconcile updateFailsEnv).trace = [] ∧
    (Reconcile updateFailsEnv).exit =
      some ({ RequeueAfter := 0 }, some (transientErr.wrap "could not add finalizer")) :=
  ⟨rfl, rfl, by decide, by decide⟩

/-- C7, amended: a pass over a loaded resource that is not marked for deletion, with the
guard present or its registration persisted, makes exactly one status write on every exit
path, the write of the status it leaves in the object; and such a pass does return when the
desired count is not negative, the listing is shorter than 2^31 and every power-off request
of a replica delete hands back a task. -/
theorem reconcile_one_status_write (env : Env) (vg : VmGroup) (h : Live env vg) :
    ((Reconcile env).exit ≠ none →
      statusWrites (Reconcile env).trace = [(Reconcile env).vg.Status] ∧
      (statusWrites (Reconcile env).trace).length = 1) ∧
    ((∀ i e, (env.vm i).powerOff ≠ .failed e) → 0 ≤ vg.Spec.Replicas →
      (∀ vms, env.vmList = .ok vms → vms.length < 2147483648) →
      (Reconcile env).exit ≠ none) := by
  obtain ⟨pre, hp, hs, -, -⟩ := reconcile_live h
  obtain ⟨-, -, -, -, p5⟩ := setup_queries hs
  obtain ⟨hsp, -, -⟩ := withGuard_spec vg
  obtain ⟨rest, ht, -, -, hex⟩ := reconcileGroup_continues env (withGuard vg) pre
  rw [hp]
  constructor
  · intro hne
    rcases hex with ⟨-, hw⟩ | ⟨he, -⟩
    · rw [ht, statusWrites_append, p5, hw]
      exact ⟨rfl, rfl⟩
    · exact absurd he hne
  · intro hoff hd hl
    exact reconcileGroup_returns env (withGuard vg) pre hoff (by rw [hsp]; exact hd) hl

/-- C7, amended, on the sample resource without guard when every call succeeds: the guard
is registered, the pass returns, and its only status write is RUNNING, 2 of 2. -/
theorem reconcile_one_status_write_witness :
    (Reconcile unguardedEnv).exit ≠ none ∧
    statusWrites (Reconcile unguardedEnv).trace =
      [{ Phase := "RUNNING", CurrentReplicas := some 2, DesiredReplicas := 2,
         LastMessage := "successfully reconciled VmGroup" }] :=
  have h := reconcile_one_status_write unguardedEnv unguardedGroup
    ⟨rfl, by decide, Or.inr rfl⟩
  have hret := h.2 (fun i e => by simp [unguardedEnv, sampleEnv, healthyVm]) (by decide)
    (fun vms hv => by
      have : vms = [sampleVm 0, sampleVm 1] := by
        simpa [unguardedEnv, sampleEnv] using hv.symm
      rw [this]
      decide)
  ⟨hret, (h.1 hret).1⟩

/-! ## C8: transient failures -/

/-- C8, as stated, fails when an earlier failure of another kind decides the phase: with
desired = 2 on a new group, the template lookup of the first clone finds nothing and is the
first failure, the second clone fails on the cancelled context, an error that is not of the
not-found type; the status written is ERROR and no requeue is asked for. -/
theorem reconcile_first_failure_decides_phase :
    cloneVM (templateMissingEnv.clone 1)
        ("web-replica-" ++ generateName templateMissingEnv.rand 1) =
      some (canceledErr.wrap "could not find template") ∧
    (canceledErr.wrap "could not find template").isNfe = false ∧
    statusWrites (Reconcile templateMissingEnv).trace =
      [{ Phase := "ERROR", CurrentReplicas := none, DesiredReplicas := 2,
         LastMessage := "could not create replica(s): could not find template: vm not found" }] ∧
    (Reconcile templateMissingEnv).exit = some ({ RequeueAfter := 0 }, none) := by
  decide

/-- C8, amended: on a pass that gets to the replicas, when the error that ends the branch
is `err` (the first failure among the clone tasks, provided it is not of the not-found
type; the first failure among the delete tasks or among the power-on tasks; or the error
of the power-state query that failed), the one status write has phase PENDING, the desired
count and the message made of the failure summary, ": " and the text of `err`, and the
pass asks for a requeue after 20 seconds. -/
theorem reconcile_transient_failure (env : Env) (vg : VmGroup) (h : Live env vg)
    (hg : GroupReady env vg) :
    (∀ e0 err, getReplicas env (getGroupName vg.Namespace vg.Name) = .error e0 →
      e0.isNfe = true →
      egWait env.first (cloneErrs env vg vg.Spec.Replicas.toNat) = some err →
      err.isNfe = false →
      WritesPending (Reconcile env) vg.Spec.Replicas "could not create replica(s)" err) ∧
    (∀ vms err, getReplicas env (getGroupName vg.Namespace vg.Name) = .ok vms →
      int32 vms.length < vg.Spec.Replicas →
      egWait env.first
        (cloneErrs env vg (int32 (vg.Spec.Replicas - int32 vms.length)).toNat) = some err →
      err.isNfe = false →
      WritesPending (Reconcile env) vg.Spec.Replicas "could not create replica(s)" err) ∧
    (∀ vms err, getReplicas env (getGroupName vg.Namespace vg.Name) = .ok vms →
      int32 vms.length > vg.Spec.Replicas →
      (Reconcile env).exit ≠ none →
      egWait env.first (failures (deleteResults env
        (scaleDownLoop vms 0 (int32 (int32 vms.length - vg.Spec.Replicas)).toNat).1))
          = some err →
      WritesPending (Reconcile env) vg.Spec.Replicas "could not delete replica(s)" err) ∧
    (∀ vms vm err, getReplicas env (getGroupName vg.Namespace vg.Name) = .ok vms →
      int32 vms.length = vg.Spec.Replicas →
      (powerLoop env 0 vms).2.2 = some (vm, err) →
      WritesPending (Reconcile env) vg.Spec.Replicas
        ("could not get power state for vm " ++ quote vm.name) err) ∧
    (∀ vms err, getReplicas env (getGroupName vg.Namespace vg.Name) = .ok vms →
      int32 vms.length = vg.Spec.Replicas →
      (powerLoop env 0 vms).2.2 = none →
      egWait env.first (failures (powerLoop env 0 vms).2.1) = some err →
      WritesPending (Reconcile env) vg.Spec.Replicas "could not power on virtual machine"
        err) := by
  obtain ⟨pre, hp, hs⟩ := reconcile_ready h hg
  obtain ⟨hsp, hn, hns⟩ := withGuard_spec vg
  rw [hp]
  refine ⟨?_, ?_, ?_, ?_, ?_⟩
  · intro e0 err hl hnf hw herr
    rw [← cloneErrs_withGuard, ← hsp] at hw
    have hst := clone_branch_no_status env (withGuard vg) pre
      (getGroupName vg.Namespace vg.Name) (withGuard vg).Spec.Replicas.toNat hs
    unfold listReplicas
    simp only [hn, hns, hl, hnf, if_true]
    unfold createReplicas
    simp only [hw, herr, Bool.false_eq_true, if_false]
    rw [← hsp]
    exact statusExit_pending env (withGuard vg) _ _ err none hst
  · intro vms err hl hlt hw herr
    rw [← cloneErrs_withGuard, ← hsp] at hw
    rw [← hsp] at hlt
    have hst := clone_branch_no_status env (withGuard vg) pre
      (getGroupName vg.Namespace vg.Name)
      (int32 ((withGuard vg).Spec.Replicas - int32 vms.length)).toNat hs
    unfold listReplicas
    simp only [hn, hns, hl]
    unfold checkDiffs
    dsimp only
    rw [if_pos hlt]
    unfold scaleUp
    simp only [hw, herr, Bool.false_eq_true, if_false]
    rw [← hsp]
    exact statusExit_pending env (withGuard vg) _ _ err _ hst
  · intro vms err hl hgt hret hw
    rw [← hsp] at hw hgt
    have hnlt : ¬ int32 vms.length < (withGuard vg).Spec.Replicas := by omega
    have hst := delete_branch_no_status pre (getGroupName vg.Namespace vg.Name)
      (scaleDownLoop vms 0 (int32 (int32 vms.length - (withGuard vg).Spec.Replicas)).toNat).1
      hs
    have hsw : listReplicas env (withGuard vg) pre =
        scaleDown env (withGuard vg) vms (int32 vms.length)
          (pre ++ [Op.getReplicas (getGroupName vg.Namespace vg.Name)]) := by
      unfold listReplicas
      simp only [hn, hns, hl]
      unfold checkDiffs
      dsimp only
      rw [if_neg hnlt, if_pos hgt]
    rw [hsw] at hret ⊢
    rw [scaleDown_failure env (withGuard vg) vms _ _ err hret hw, ← hsp]
    exact statusExit_pending env (withGuard vg) _ _ err _ hst
  · intro vms vm err hl heq hq
    rw [← hsp] at heq
    have hnlt : ¬ int32 vms.length < (withGuard vg).Spec.Replicas := by omega
    have hngt : ¬ int32 vms.length > (withGuard vg).Spec.Replicas := by omega
    have hst := (power_branch_no_status env pre (getGroupName vg.Namespace vg.Name) vms hs).1
    unfold listReplicas
    simp only [hn, hns, hl]
    unfold checkDiffs
    dsimp only
    rw [if_neg hnlt, if_neg hngt]
    unfold checkPower
    dsimp only
    split
    · rename_i ops rs vm' err' hpl
      rw [hpl] at hq hst
      simp only [Option.some.injEq, Prod.mk.injEq] at hq
      obtain ⟨rfl, rfl⟩ := hq
      rw [← hsp]
      exact statusExit_pending env (withGuard vg) _ _ _ _ hst
    · rename_i ops rs hpl
      rw [hpl] at hq
      simp at hq
  · intro vms err hl heq hq hw
    rw [← hsp] at heq
    have hnlt : ¬ int32 vms.length < (withGuard vg).Spec.Replicas := by omega
    have hngt : ¬ int32 vms.length > (withGuard vg).Spec.Replicas := by omega
    have hst := (power_branch_no_status env pre (getGroupName vg.Namespace vg.Name) vms hs).2
    unfold listReplicas
    simp only [hn, hns, hl]
    unfold checkDiffs
    dsimp only
    rw [if_neg hnlt, if_neg hngt]
    unfold checkPower
    dsimp only
    split
    · rename_i ops rs vm' err' hpl
      rw [hpl] at hq
      simp at hq
    · rename_i ops rs hpl
      rw [hpl] at hw hst
      simp only [hw]
      rw [← hsp]
      exact statusExit_pending env (withGuard vg) _ _ _ _ hst

/-- C8, amended, at desired = 3 on a new group when the clone task of the second replica
fails in the backend: the status is PENDING with the text of that failure and a requeue
after 20 seconds is asked for. -/
theorem reconcile_transient_failure_witness :
    WritesPending (Reconcile oneCloneFailsEnv) 3 "could not create replica(s)"
      (transientErr.wrap "could not create clone \"web-replica-ijklmnop\"") :=
  (reconcile_transient_failure oneCloneFailsEnv (sampleGroup 3) ⟨rfl, rfl, Or.inl rfl⟩
    (Or.inr ⟨_, _, rfl, rfl, rfl⟩)).1 notFoundErr
    (transientErr.wrap "could not create clone \"web-replica-ijklmnop\"") rfl rfl
    (by decide) rfl

/-! ## C9: the limiter -/

/-- C9: for every capacity `C ≥ 1`, `newLimiter C` gives a limiter such that, in every
sequence of completed acquire and release steps on it in which each release is made by a
caller that holds a token, at every point (after the first part `as` of a sequence
`as ++ bs`) the number of tokens held is at most `C` and tokens in the bucket plus tokens
held is `C`; an acquire completes only when the bucket is not empty, and takes one token
out of it; and on the fresh limiter `C` acquires complete, after which the bucket is empty
and a further acquire has to wait. -/
theorem limiter_bounded (C : Int) (hC : 1 ≤ C) :
    ∃ l, newLimiter C = some l ∧
      (∀ (as bs : List LimAction) (s : LimState),
        releasesByHolders [] (as ++ bs) = true →
        LimState.run { lim := l, holders := [] } as = some s →
        s.holders.length ≤ C.toNat ∧ s.lim.bucket.len + s.holders.length = C.toNat) ∧
      (∀ (s t : LimState) (c : Nat), s.step (.acquire c) = some t →
        0 < s.lim.bucket.len ∧ t.lim.bucket.len + 1 = s.lim.bucket.len) ∧
      (∃ s, LimState.run { lim := l, holders := [] }
          ((List.range C.toNat).map LimAction.acquire) = some s ∧
        s.lim.bucket.len = 0 ∧ ∀ c, s.step (.acquire c) = none) := by
  refine ⟨_, newLimiter_spec C (by omega), ?_, ?_, ?_⟩
  · intro as bs s hrel hrun
    obtain ⟨h1, h2⟩ := limiter_run_invariant as bs
      { lim := { bucket := { cap := C.toNat, len := C.toNat } }, holders := [] } s
      (by simp) hrel hrun
    simp only at h2
    rw [h2] at h1
    exact ⟨by omega, h1⟩
  · intro s t c hstep
    simp only [LimState.step, limiter.acquire, Chan.recv, Option.map_eq_some'] at hstep
    obtain ⟨l, ⟨b, hb, rfl⟩, rfl⟩ := hstep
    split at hb
    · rename_i hpos
      cases hb
      exact ⟨hpos, by simp only; omega⟩
    · cases hb
  · obtain ⟨s, hs, hlen⟩ := limiter_acquires (List.range C.toNat)
      { lim := { bucket := { cap := C.toNat, len := C.toNat } }, holders := [] } (by simp)
    simp only [List.length_range, Nat.sub_self] at hlen
    refine ⟨s, hs, hlen, ?_⟩
    intro c
    simp [LimState.step, limiter.acquire, Chan.recv, hlen]

/-- C9 at the capacity the controller uses, `defaultConcurrency = 3`. -/
theorem limiter_bounded_witness :
    ∃ l, newLimiter defaultConcurrency = some l ∧
      (∀ (as bs : List LimAction) (s : LimState),
        releasesByHolders [] (as ++ bs) = true →
        LimState.run { lim := l, holders := [] } as = some s →
        s.holders.length ≤ 3 ∧ s.lim.bucket.len + s.holders.length = 3) ∧
      (∀ (s t : LimState) (c : Nat), s.step (.acquire c) = some t →
        0 < s.lim.bucket.len ∧ t.lim.bucket.len + 1 = s.lim.bucket.len) ∧
      (∃ s, LimState.run { lim := l, holders := [] }
          ([0, 1, 2].map LimAction.acquire) = some s ∧
        s.lim.bucket.len = 0 ∧ ∀ c, s.step (.acquire c) = none) :=
  limiter_bounded 3 (by decide)

/-! ## C10: the power-off step of `deleteVM` -/

/-- When the power-off request hands back a task, `deleteVM` goes on to the destroy request
whatever `task.Wait` returns, and its result is the same as when the wait succeeds. -/
theorem deleteVM_ignores_power_off_wait (c : VmCalls) (vm : VM) (w : Option Err)
    (h : c.powerOff = .started w) :
    deleteVM c vm = deleteVM { c with powerOff := .started none } vm ∧
      VmRequest.destroy ∈ (deleteVM c vm).1 := by
  unfold deleteVM
  simp only [h]
  split
  · split <;> simp
  · simp
  · simp

/-- C10, the code when the power-off request fails and hands back no task: `deleteVM` makes
no destroy request and does not return (`task.Wait` is called on the nil task), although
the destroy request would have succeeded; a scale-down pass that deletes this replica is
cut off after starting its delete tasks and writes no status. -/
theorem deleteVM_power_off_request_fails :
    deleteVM unreachableForPowerOff (sampleVm 0) = ([VmRequest.powerOff], Exit.crashed) ∧
    unreachableForPowerOff.destroy = .started none ∧
    (Reconcile powerOffFailsEnv).exit = none ∧
    statusWrites (Reconcile powerOffFailsEnv).trace = [] := by
  decide

/-! ## C11: "already deleted" answers to a destroy -/

/-- C11, as stated, fails when the answer arrives at the wait on the destroy task: the error
text carries the already-deleted signature, and both `deleteFolder` and `deleteVM` return
it, wrapped, as a failure. -/
theorem delete_returns_already_deleted_at_wait :
    stringsContains alreadyGoneErr.text alreadyDeletedErr = true ∧
    deleteFolder (.started (some alreadyGoneErr)) sampleFolder =
      some (alreadyGoneErr.wrap "folder delete task failed") ∧
    (deleteVM goneAtWait (sampleVm 0)).2 =
      .returned (some (alreadyGoneErr.wrap "vm delete task failed")) := by
  decide

/-- C11, amended: in `deleteVM` (once the power-off request has handed back a task) and in
`deleteFolder`, an error of the destroy request whose text contains the already-deleted
signature is absorbed and the function returns nil; an error of the destroy request without
the signature is returned wrapped, and so is every error of the wait on the destroy task,
whatever its text. -/
theorem delete_absorbs_already_deleted_at_request (c : VmCalls) (vm : VM) (group : Folder)
    (w : Option Err) (h : c.powerOff = .started w) :
    (∀ err, c.destroy = .failed err → stringsContains err.text alreadyDeletedErr = true →
      (deleteVM c vm).2 = .returned none) ∧
    (∀ err, c.destroy = .failed err → stringsContains err.text alreadyDeletedErr = false →
      (deleteVM c vm).2 =
        .returned (some (err.wrap ("could not delete vm " ++ quote vm.InventoryPath)))) ∧
    (∀ err, c.destroy = .started (some err) →
      (deleteVM c vm).2 = .returned (some (err.wrap "vm delete task failed"))) ∧
    (c.destroy = .started none → (deleteVM c vm).2 = .returned none) ∧
    (∀ err, stringsContains err.text alreadyDeletedErr = true →
      deleteFolder (.failed err) group = none) ∧
    (∀ err, stringsContains err.text alreadyDeletedErr = false →
      deleteFolder (.failed err) group =
        some (err.wrap ("could not delete folder " ++ quote group.InventoryPath))) ∧
    (∀ err, deleteFolder (.started (some err)) group =
      some (err.wrap "folder delete task failed")) ∧
    deleteFolder (.started none) group = none := by
  refine ⟨?_, ?_, ?_, ?_, ?_, ?_, ?_, rfl⟩
  · intro err hd hs
    simp [deleteVM, h, hd, hs]
  · intro err hd hs
    simp [deleteVM, h, hd, hs]
  · intro err hd
    simp [deleteVM, h, hd]
  · intro hd
    simp [deleteVM, h, hd]
  · intro err hs
    simp [deleteFolder, hs]
  · intro err hs
    simp [deleteFolder, hs]
  · intro err
    rfl

/-- C11, amended, on a replica whose destroy request is answered with "already deleted":
`deleteVM` returns nil. -/
theorem delete_absorbs_already_deleted_at_request_witness :
    (deleteVM goneAtRequest (sampleVm 0)).2 = .returned none :=
  (delete_absorbs_already_deleted_at_request goneAtRequest (sampleVm 0) sampleFolder none
    rfl).1 alreadyGoneErr rfl (by decide)

/-! ## C14: the key of the backend group -/

/-- C14, as stated, fails when the dash falls differently: the resources `c` in namespace
`a-b` and `b-c` in namespace `a` are different and get the same key `a-b-c`, hence the same
folder path. -/
theorem getGroupName_collision :
    ("a-b", "c") ≠ ("a", "b-c") ∧
    getGroupName "a-b" "c" = "a-b-c" ∧
    getGroupName "a" "b-c" = "a-b-c" ∧
    groupPath (getGroupName "a-b" "c") = groupPath (getGroupName "a" "b-c") := by
  decide

/-- C14, amended: `getGroupName namespace name` is `namespace ++ "-" ++ name`, and two
resources with different (namespace, name) pairs get different keys, hence different folder
paths, whenever neither namespace contains a dash, or neither name contains a dash, or the
two namespaces are the same, or the two names are the same. -/
theorem getGroupName_key (ns1 n1 ns2 n2 : String)
    (h : ('-' ∉ ns1.toList ∧ '-' ∉ ns2.toList) ∨ ('-' ∉ n1.toList ∧ '-' ∉ n2.toList) ∨
      ns1 = ns2 ∨ n1 = n2)
    (hne : (ns1, n1) ≠ (ns2, n2)) :
    getGroupName ns1 n1 = ns1 ++ "-" ++ n1 ∧
    getGroupName ns1 n1 ≠ getGroupName ns2 n2 ∧
    groupPath (getGroupName ns1 n1) ≠ groupPath (getGroupName ns2 n2) := by
  have hkey : getGroupName ns1 n1 ≠ getGroupName ns2 n2 := by
    intro heq
    have hd : ns1.data ++ '-' :: n1.data = ns2.data ++ '-' :: n2.data := by
      rw [← getGroupName_data, ← getGroupName_data, heq]
    have hpair : ns1.data = ns2.data ∧ n1.data = n2.data := by
      rcases h with ⟨a, b⟩ | ⟨a, b⟩ | rfl | rfl
      · exact append_sep_left '-' _ _ _ _ a b hd
      · exact append_sep_right '-' _ _ _ _ a b hd
      · have := List.append_cancel_left hd
        simp only [List.cons.injEq, true_and] at this
        exact ⟨rfl, this⟩
      · have : ns1.data ++ ['-'] ++ n1.data = ns2.data ++ ['-'] ++ n1.data := by
          simpa using hd
        have h2 := List.append_cancel_right this
        exact ⟨List.append_cancel_right h2, rfl⟩
    exact hne (by rw [String.ext hpair.1, String.ext hpair.2])
  refine ⟨rfl, hkey, ?_⟩
  intro hp
  apply hkey
  have hd : (groupPath (getGroupName ns1 n1)).data = (groupPath (getGroupName ns2 n2)).data := by
    rw [hp]
  simp only [groupPath, String.data_append] at hd
  exact String.ext (List.append_cancel_left hd)

/-- C14, amended, on two resources named `web` in the namespaces `team-a` and `team-b`. -/
theorem getGroupName_key_witness :
    getGroupName "team-a" "web" ≠ getGroupName "team-b" "web" :=
  (getGroupName_key "team-a" "web" "team-b" "web" (Or.inr (Or.inr (Or.inr rfl)))
    (by decide)).2.1

/-! ## C13: the status write and the tasks of the errgroup -/

/-- C13, the code when a power-state query fails after a power-on task was started: with
desired = 2 and two listed replicas, the first powered off and the query on the second
failing, the pass starts the power-on of the first replica, then writes the status PENDING
and returns, and `eg.Wait` is not called in between. -/
theorem reconcile_query_failure_skips_wait :
    (Reconcile queryFailsEnv).trace =
      [Op.get, Op.getVMGroup "default-web", Op.getReplicas "default-web",
        Op.isPoweredOn (sampleVm 0), Op.goPowerOn (sampleVm 0), Op.isPoweredOn (sampleVm 1),
        Op.statusUpdate
          { Phase := "PENDING", CurrentReplicas := some 2, DesiredReplicas := 2,
            LastMessage :=
              "could not get power state for vm \"web-replica-1\": connection refused" }] ∧
    (Reconcile queryFailsEnv).exit = some ({ RequeueAfter := 20 * second }, none) ∧
    Op.wait ∉ (Reconcile queryFailsEnv).trace ∧
    settled false (Reconcile queryFailsEnv).trace = false := by
  decide

/-! ## C12: teardown is idempotent -/

/-- C12: for a resource `vg`, (1) on a backend in any state of the group (as an earlier
teardown that succeeded fully or in part can leave it) whose operations do not fail,
`deleteExternalResources` returns nil and leaves the group absent, and invoked again on the
state it leaves it makes the group lookup only and returns nil; (2) whenever the group
lookup reports not-found it makes no other backend call and returns nil, and the pass of
`Reconcile` on the resource marked for deletion then updates the record with the guard
removed, returning no error when that update succeeds; (3) whenever the group is found and
the listing reports not-found, the only backend call after the lookup and the listing is
the deletion of the group folder. -/
theorem teardown_idempotent (vg : VmGroup) :
    (∀ env inv, Serves env inv →
      (deleteExternalResources env vg).2 = Exit.returned none ∧
      (inv.after (deleteExternalResources env vg).1).present = false ∧
      ∀ env', Serves env' (inv.after (deleteExternalResources env vg).1) →
        deleteExternalResources env' vg =
          ([Op.getVMGroup (getGroupName vg.Namespace vg.Name)], Exit.returned none)) ∧
    (∀ env e, getVMGroup env (getGroupName vg.Namespace vg.Name) = .error e →
      e.isNfe = true →
      deleteExternalResources env vg =
        ([Op.getVMGroup (getGroupName vg.Namespace vg.Name)], Exit.returned none) ∧
      (env.get = .ok vg → vg.deletionIsZero = false →
        containsString vg.Finalizers finalizerID = true →
        (Reconcile env).trace =
          [Op.get, Op.getVMGroup (getGroupName vg.Namespace vg.Name),
            Op.update (removeString vg.Finalizers finalizerID)] ∧
        (Reconcile env).vg.Finalizers = removeString vg.Finalizers finalizerID ∧
        (Reconcile env).exit =
          some ({ RequeueAfter := 0 }, wrap env.update "could not remove finalizer") ∧
        (env.update = none → (Reconcile env).exit = some ({ RequeueAfter := 0 }, none)))) ∧
    (∀ env f e, getVMGroup env (getGroupName vg.Namespace vg.Name) = .ok f →
      getReplicas env (getGroupName vg.Namespace vg.Name) = .error e → e.isNfe = true →
      deleteExternalResources env vg =
        ([Op.getVMGroup (getGroupName vg.Namespace vg.Name),
          Op.getReplicas (getGroupName vg.Namespace vg.Name), Op.deleteFolder f],
         Exit.returned
          (wrap (deleteFolder env.destroyFolder f) "could not delete VmGroup"))) := by
  refine ⟨?_, ?_, ?_⟩
  · intro env inv hs
    obtain ⟨h1, h2⟩ := teardown_served env vg inv hs
    exact ⟨h1, h2, fun env' hs' => teardown_served_absent env' vg _ hs' h2⟩
  · intro env e hg hn
    have ht := teardown_group_absent env vg e hg hn
    refine ⟨ht, ?_⟩
    intro h1 h2 h3
    have hrun : Reconcile env =
        { trace := [Op.get, Op.getVMGroup (getGroupName vg.Namespace vg.Name),
            Op.update (removeString vg.Finalizers finalizerID)],
          exit := some ({ RequeueAfter := 0 }, wrap env.update "could not remove finalizer"),
          vg := { vg with Finalizers := removeString vg.Finalizers finalizerID } } := by
      simp [Reconcile, h1, h2, h3, ht]
    rw [hrun]
    refine ⟨rfl, rfl, rfl, ?_⟩
    intro hu
    simp only [hu, wrap]
  · intro env f e hg hl hn
    exact teardown_listing_absent env vg f e hg hl hn

/-- C12 on the sample resource marked for deletion: with two replicas in the group the
teardown returns nil and leaves the group absent, and when the group is already gone the
pass makes the lookup, updates the record without the guard and returns no error. -/
theorem teardown_idempotent_witness :
    (deleteExternalResources deletingEnv deletingGroup).2 = Exit.returned none ∧
    (twoReplicas.after (deleteExternalResources deletingEnv deletingGroup).1).present = false ∧
    (Reconcile groupGoneEnv).trace =
      [Op.get, Op.getVMGroup "default-web", Op.update ["audit", "backup"]] ∧
    (Reconcile groupGoneEnv).exit = some ({ RequeueAfter := 0 }, none) :=
  have h := teardown_idempotent deletingGroup
  have h1 := h.1 deletingEnv twoReplicas
    { found := fun _ => ⟨⟨sampleFolder, rfl⟩, ⟨sampleFolder, rfl⟩⟩
      absent := fun hp => by cases hp
      listing := Or.inl rfl
      powerOff := fun _ => ⟨none, rfl⟩
      destroy := fun _ => rfl
      destroyFolder := rfl }
  have h2 := (h.2.1 groupGoneEnv _ rfl rfl).2 rfl (by decide) (by decide)
  ⟨h1.1, h1.2.1, h2.1, h2.2.2.2 rfl⟩

end VmOperator
